import Mathlib

/-!
Verification of the chess-agent core (`agent/square.py`, `agent/move.py`,
`agent/board.py`, `agent/evaluation.py`) against its specification.

The Python code is shallowly embedded: Python's arbitrary-precision
integers become `Nat` (bitboards; all masks used are `1 <<< i` with
`i ≤ 63`) or `Int` where values may go negative (ray walks, counters),
Python strings become `List Char`, exceptions become `Option`, and the
in-place mutation of the `Board` object becomes explicit state passing.
The one genuinely heap-dependent behaviour — `Board.get_legal_moves`
restoring `self.__dict__` from a *shallow* copy, which shares the
mutable `castling_rights` dict with the live object — is modelled
explicitly when `get_legal_moves` is embedded below.

Loops in the Python source that walk a ray square by square are embedded
with a fuel parameter (structural recursion so that concrete positions
evaluate inside the kernel); every such loop in the source leaves the
board index range `[0, 63]` after at most 64 steps, so the fuel of 100
passed at every call site is never exhausted. Loops that strip bits off
a bitboard (`x &= x - 1`) are embedded by well-founded recursion on the
bitboard.
-/

/-! ## Small helpers -/

/-- Python's `bb & ~mask` on non-negative ints: clear in `bb` the bits of `mask`. -/
def clearBits (bb mask : Nat) : Nat := bb ^^^ (bb &&& mask)

/-- Lowest set bit index; `-1` for zero.  Source: `Evaluation._get_lsb`,
`(bitboard & -bitboard).bit_length() - 1 if bitboard else -1`. -/
def getLsb (bb : Nat) : Int :=
  if bb = 0 then -1 else Nat.log2 (bb ^^^ (bb &&& (bb - 1)))

/-- Highest set bit index; `-1` for zero.  Source: `Evaluation._get_msb`,
`bitboard.bit_length() - 1 if bitboard else -1`. -/
def getMsb (bb : Nat) : Int :=
  if bb = 0 then -1 else Nat.log2 bb

/-- Number of set bits.  Source: `Evaluation._popcount`,
`bin(bitboard).count('1')`. -/
def popcount (bb : Nat) : Nat :=
  if h : bb = 0 then 0
  else
    have : bb &&& (bb - 1) < bb :=
      Nat.lt_of_le_of_lt Nat.and_le_right (Nat.pred_lt h)
    popcount (bb &&& (bb - 1)) + 1

/-- Split a list of characters at every occurrence of `c` (keeping empty pieces). -/
def splitOnChar (c : Char) : List Char → List (List Char)
  | [] => [[]]
  | x :: xs =>
    if x = c then [] :: splitOnChar c xs
    else
      match splitOnChar c xs with
      | [] => [[x]]
      | y :: ys => (x :: y) :: ys

/-- Python's `str.split()` with no argument: split on whitespace runs and drop
empty pieces.  The strings handled here only ever contain the blank `' '`. -/
def pySplit (s : List Char) : List (List Char) :=
  (splitOnChar ' ' s).filter (fun p => p ≠ [])

/-- Decimal digit value of a character, `int(char)` on a digit. -/
def digitVal (c : Char) : Nat := c.toNat - 48

/-- Decimal printing of a natural number, most significant digit first, with a
fuel argument for structural recursion; fuel `n + 1` always suffices. -/
def natToStrGo : Nat → Nat → List Char → List Char
  | 0, _, acc => acc
  | fuel + 1, n, acc =>
    let d := Char.ofNat (48 + n % 10)
    if n < 10 then d :: acc else natToStrGo fuel (n / 10) (d :: acc)

/-- Python's `str(n)` for a natural number. -/
def natToString (n : Nat) : List Char := natToStrGo (n + 1) n []

/-- Python's `str(n)` for an int (counters may in principle be negative,
since they are taken verbatim from the position string). -/
def intToString (n : Int) : List Char :=
  if n < 0 then '-' :: natToString (-n).toNat else natToString n.toNat

/-- Accumulating decimal parser: fails on the first non-digit. -/
def parseNatAux : List Char → Nat → Option Nat
  | [], acc => some acc
  | c :: cs, acc =>
    if c.isDigit then parseNatAux cs (acc * 10 + digitVal c) else none

/-- Python's `int(s)` restricted to unsigned decimal strings. -/
def parseNat : List Char → Option Nat
  | [] => none
  | cs => parseNatAux cs 0

/-- Python's `int(s)`: optional sign, then decimal digits.  (Python also
accepts surrounding whitespace and underscores; those never occur here.) -/
def parseInt : List Char → Option Int
  | [] => none
  | c :: cs =>
    if c = '-' then (parseNat cs).map (fun k => -(Int.ofNat k))
    else if c = '+' then (parseNat cs).map (fun k => Int.ofNat k)
    else (parseNat (c :: cs)).map (fun k => Int.ofNat k)

/-! ## Square (`agent/square.py`)

The Python `Square` is an `IntEnum` with 0x88 values `rank * 16 + file`;
all bitboard arithmetic goes through `int(square) = rank * 8 + file`.  The
embedding stores the `(rank, file)` pair, which determines the 0x88 value. -/

structure Square where
  rank : Nat
  file : Nat
deriving DecidableEq, Repr

/-- `Square.__int__`: the 0–63 bitboard index. -/
def Square.toIdx (s : Square) : Nat := s.rank * 8 + s.file

/-- `Square.from_coords`: fails unless both coordinates are in `[0, 7]`. -/
def Square.fromCoords (rank file : Int) : Option Square :=
  if 0 ≤ rank ∧ rank ≤ 7 ∧ 0 ≤ file ∧ file ≤ 7 then
    some ⟨rank.toNat, file.toNat⟩
  else none

/-- `Square.from_bitboard_square`: from a 0–63 index (fails outside). -/
def Square.fromBB (square : Nat) : Square := ⟨square / 8, square % 8⟩

/-- `Square.from_notation` on a two-character algebraic string such as `"e4"`:
fails on malformed input. -/
def Square.fromAlg : List Char → Option Square
  | [c1, c2] =>
    if 'a' ≤ c1 ∧ c1 ≤ 'h' ∧ '1' ≤ c2 ∧ c2 ≤ '8' then
      some ⟨c2.toNat - 49, c1.toNat - 97⟩
    else none
  | _ => none

/-- `Square.notation`: file letter followed by the 1-based rank,
`chr(ord('a') + file)` and `str(rank + 1)`. -/
def Square.toAlg (s : Square) : List Char :=
  Char.ofNat (97 + s.file) :: natToString (s.rank + 1)

-- The named squares used by the board code.
def sqA1 : Square := ⟨0, 0⟩
def sqB1 : Square := ⟨0, 1⟩
def sqC1 : Square := ⟨0, 2⟩
def sqD1 : Square := ⟨0, 3⟩
def sqE1 : Square := ⟨0, 4⟩
def sqF1 : Square := ⟨0, 5⟩
def sqG1 : Square := ⟨0, 6⟩
def sqH1 : Square := ⟨0, 7⟩
def sqA8 : Square := ⟨7, 0⟩
def sqC8 : Square := ⟨7, 2⟩
def sqD8 : Square := ⟨7, 3⟩
def sqE8 : Square := ⟨7, 4⟩
def sqF8 : Square := ⟨7, 5⟩
def sqG8 : Square := ⟨7, 6⟩
def sqH8 : Square := ⟨7, 7⟩
def sqB8 : Square := ⟨7, 1⟩

/-! ## Move (`agent/move.py`) -/

inductive MoveFlag where
  | QUIET
  | DOUBLE_PAWN_PUSH
  | KING_CASTLE
  | QUEEN_CASTLE
  | CAPTURE
  | EN_PASSANT
  | PROMOTION_N
  | PROMOTION_B
  | PROMOTION_R
  | PROMOTION_Q
  | PROMOTION_CAPTURE_N
  | PROMOTION_CAPTURE_B
  | PROMOTION_CAPTURE_R
  | PROMOTION_CAPTURE_Q
deriving DecidableEq, Repr

structure Move where
  from_square : Square
  to_square : Square
  flag : MoveFlag := MoveFlag.QUIET
deriving DecidableEq, Repr

/-- `Move.is_capture`. -/
def Move.is_capture (m : Move) : Bool :=
  match m.flag with
  | MoveFlag.CAPTURE | MoveFlag.EN_PASSANT
  | MoveFlag.PROMOTION_CAPTURE_B | MoveFlag.PROMOTION_CAPTURE_N
  | MoveFlag.PROMOTION_CAPTURE_Q | MoveFlag.PROMOTION_CAPTURE_R => true
  | _ => false

/-- `Move.is_promotion`. -/
def Move.is_promotion (m : Move) : Bool :=
  match m.flag with
  | MoveFlag.PROMOTION_N | MoveFlag.PROMOTION_B
  | MoveFlag.PROMOTION_R | MoveFlag.PROMOTION_Q
  | MoveFlag.PROMOTION_CAPTURE_N | MoveFlag.PROMOTION_CAPTURE_B
  | MoveFlag.PROMOTION_CAPTURE_R | MoveFlag.PROMOTION_CAPTURE_Q => true
  | _ => false

/-- `Move.is_castling`. -/
def Move.is_castling (m : Move) : Bool :=
  match m.flag with
  | MoveFlag.KING_CASTLE | MoveFlag.QUEEN_CASTLE => true
  | _ => false

/-- `Move.get_promotion_piece`: one-character string, `''` (here `[]`) for
non-promotions. -/
def Move.get_promotion_piece (m : Move) : List Char :=
  match m.flag with
  | MoveFlag.PROMOTION_N | MoveFlag.PROMOTION_CAPTURE_N => ['N']
  | MoveFlag.PROMOTION_B | MoveFlag.PROMOTION_CAPTURE_B => ['B']
  | MoveFlag.PROMOTION_R | MoveFlag.PROMOTION_CAPTURE_R => ['R']
  | MoveFlag.PROMOTION_Q | MoveFlag.PROMOTION_CAPTURE_Q => ['Q']
  | _ => []

/-- `promotion_flags.get(uci[4].lower())` in `Move.from_uci`. -/
def promotionFlagOf (c : Char) : Option MoveFlag :=
  if c = 'n' then some MoveFlag.PROMOTION_N
  else if c = 'b' then some MoveFlag.PROMOTION_B
  else if c = 'r' then some MoveFlag.PROMOTION_R
  else if c = 'q' then some MoveFlag.PROMOTION_Q
  else none

/-- `Move.from_uci`: accepts exactly 4 or 5 characters of the
file/rank/file/rank[/promotion] grammar, raising (`none`) otherwise. -/
def Move.fromUci (uci : List Char) : Option Move :=
  match uci with
  | [a, b, c, d] =>
    if 'a' ≤ a ∧ a ≤ 'h' ∧ '1' ≤ b ∧ b ≤ '8' ∧
       'a' ≤ c ∧ c ≤ 'h' ∧ '1' ≤ d ∧ d ≤ '8' then
      match Square.fromAlg [a, b], Square.fromAlg [c, d] with
      | some fs, some ts => some ⟨fs, ts, MoveFlag.QUIET⟩
      | _, _ => none
    else none
  | [a, b, c, d, p] =>
    if 'a' ≤ a ∧ a ≤ 'h' ∧ '1' ≤ b ∧ b ≤ '8' ∧
       'a' ≤ c ∧ c ≤ 'h' ∧ '1' ≤ d ∧ d ≤ '8' then
      match Square.fromAlg [a, b], Square.fromAlg [c, d] with
      | some fs, some ts =>
        match promotionFlagOf p.toLower with
        | some fl => some ⟨fs, ts, fl⟩
        | none => none
      | _, _ => none
    else none
  | _ => none

/-! ## Board data model (`agent/board.py`) -/

/-- The `castling_rights` dict `{'K':…, 'Q':…, 'k':…, 'q':…}`. -/
structure CastlingRights where
  K : Bool
  Q : Bool
  k : Bool
  q : Bool
deriving DecidableEq, Repr

structure Board where
  white_pawns : Nat
  white_knights : Nat
  white_bishops : Nat
  white_rooks : Nat
  white_queens : Nat
  white_king : Nat
  black_pawns : Nat
  black_knights : Nat
  black_bishops : Nat
  black_rooks : Nat
  black_queens : Nat
  black_king : Nat
  white_to_move : Bool
  castling_rights : CastlingRights
  en_passant_target : Option Square
  halfmove_clock : Int
  fullmove_number : Int
  white_pieces : Nat
  black_pieces : Nat
  all_pieces : Nat
deriving DecidableEq, Repr

/-- `Board.update_position_masks`. -/
def Board.update_position_masks (b : Board) : Board :=
  let wp := b.white_pawns ||| b.white_knights ||| b.white_bishops |||
            b.white_rooks ||| b.white_queens ||| b.white_king
  let bp := b.black_pawns ||| b.black_knights ||| b.black_bishops |||
            b.black_rooks ||| b.black_queens ||| b.black_king
  { b with white_pieces := wp, black_pieces := bp, all_pieces := wp ||| bp }

/-- `Board.get_piece_at`: the board-printing character of the piece on the
square, `'.'` when empty, testing the bitboards in the source's order. -/
def Board.get_piece_at (b : Board) (sq : Square) : Char :=
  if b.white_pawns &&& (1 <<< sq.toIdx) ≠ 0 then 'P'
  else if b.white_knights &&& (1 <<< sq.toIdx) ≠ 0 then 'N'
  else if b.white_bishops &&& (1 <<< sq.toIdx) ≠ 0 then 'B'
  else if b.white_rooks &&& (1 <<< sq.toIdx) ≠ 0 then 'R'
  else if b.white_queens &&& (1 <<< sq.toIdx) ≠ 0 then 'Q'
  else if b.white_king &&& (1 <<< sq.toIdx) ≠ 0 then 'K'
  else if b.black_pawns &&& (1 <<< sq.toIdx) ≠ 0 then 'p'
  else if b.black_knights &&& (1 <<< sq.toIdx) ≠ 0 then 'n'
  else if b.black_bishops &&& (1 <<< sq.toIdx) ≠ 0 then 'b'
  else if b.black_rooks &&& (1 <<< sq.toIdx) ≠ 0 then 'r'
  else if b.black_queens &&& (1 <<< sq.toIdx) ≠ 0 then 'q'
  else if b.black_king &&& (1 <<< sq.toIdx) ≠ 0 then 'k'
  else '.'

/-! ## FEN parsing (`Board._parse_fen`) -/

/-- The twelve piece-placement bitboards accumulated while parsing the
placement field (the `Board.__init__` zero-initialised attributes). -/
structure Placement where
  white_pawns : Nat := 0
  white_knights : Nat := 0
  white_bishops : Nat := 0
  white_rooks : Nat := 0
  white_queens : Nat := 0
  white_king : Nat := 0
  black_pawns : Nat := 0
  black_knights : Nat := 0
  black_bishops : Nat := 0
  black_rooks : Nat := 0
  black_queens : Nat := 0
  black_king : Nat := 0
deriving DecidableEq, Repr

/-- The per-character bitboard update of the placement loop: `|=` the mask
into the bitboard selected by the piece letter; unrecognized characters
update nothing (the source's `if`/`elif` chain has no `else`). -/
def applyPieceChar (c : Char) (mask : Nat) (p : Placement) : Placement :=
  if c = 'P' then { p with white_pawns := p.white_pawns ||| mask }
  else if c = 'N' then { p with white_knights := p.white_knights ||| mask }
  else if c = 'B' then { p with white_bishops := p.white_bishops ||| mask }
  else if c = 'R' then { p with white_rooks := p.white_rooks ||| mask }
  else if c = 'Q' then { p with white_queens := p.white_queens ||| mask }
  else if c = 'K' then { p with white_king := p.white_king ||| mask }
  else if c = 'p' then { p with black_pawns := p.black_pawns ||| mask }
  else if c = 'n' then { p with black_knights := p.black_knights ||| mask }
  else if c = 'b' then { p with black_bishops := p.black_bishops ||| mask }
  else if c = 'r' then { p with black_rooks := p.black_rooks ||| mask }
  else if c = 'q' then { p with black_queens := p.black_queens ||| mask }
  else if c = 'k' then { p with black_king := p.black_king ||| mask }
  else p

/-- The inner character loop of the placement parser, for the rank substring
at index `rankIdx` (rank `7 - rankIdx`), starting at `fileIdx`.  A digit
advances the file; any other character calls `Square.from_coords` (which
raises — `none` — out of range) and then dispatches on the piece letter. -/
def parseRankChars (rankIdx : Nat) : List Char → Nat → Placement → Option Placement
  | [], _, p => some p
  | c :: cs, fileIdx, p =>
    if c.isDigit then parseRankChars rankIdx cs (fileIdx + digitVal c) p
    else
      match Square.fromCoords ((7 : Int) - rankIdx) (fileIdx : Int) with
      | none => none
      | some sq =>
        parseRankChars rankIdx cs (fileIdx + 1)
          (applyPieceChar c (1 <<< sq.toIdx) p)

/-- The outer rank loop (`for rank_idx, rank in enumerate(ranks)`). -/
def parseRanks : List (List Char) → Nat → Placement → Option Placement
  | [], _, p => some p
  | r :: rs, idx, p =>
    match parseRankChars idx r 0 p with
    | none => none
    | some p' => parseRanks rs (idx + 1) p'

/-- Field 3: `'K' in parts[2]` and so on. -/
def parseCastlingField (f : List Char) : CastlingRights :=
  ⟨f.contains 'K', f.contains 'Q', f.contains 'k', f.contains 'q'⟩

/-- Field 4: `None if parts[3] == '-' else Square.from_notation(parts[3])`. -/
def parseEpField (f : List Char) : Option (Option Square) :=
  if f = ['-'] then some none
  else (Square.fromAlg f).map some

/-- `Board(fen)`: `__init__` zero-initialises, runs `_parse_fen` (any
exception becomes `none`) and finally `update_position_masks`.  Python
reads `parts[0]`…`parts[5]` and ignores any extra whitespace-separated
fields. -/
def boardFromFen (fen : List Char) : Option Board :=
  match pySplit fen with
  | p0 :: p1 :: p2 :: p3 :: p4 :: p5 :: _ =>
    match parseRanks (splitOnChar '/' p0) 0 {} with
    | none => none
    | some pl =>
      match parseEpField p3, parseInt p4, parseInt p5 with
      | some ep, some hm, some fm =>
        some (Board.update_position_masks
          { white_pawns := pl.white_pawns
            white_knights := pl.white_knights
            white_bishops := pl.white_bishops
            white_rooks := pl.white_rooks
            white_queens := pl.white_queens
            white_king := pl.white_king
            black_pawns := pl.black_pawns
            black_knights := pl.black_knights
            black_bishops := pl.black_bishops
            black_rooks := pl.black_rooks
            black_queens := pl.black_queens
            black_king := pl.black_king
            white_to_move := p1 = ['w']
            castling_rights := parseCastlingField p2
            en_passant_target := ep
            halfmove_clock := hm
            fullmove_number := fm
            white_pieces := 0
            black_pieces := 0
            all_pieces := 0 })
      | _, _, _ => none
  | _ => none

/-! ## FEN generation (`Board.generate_fen`) -/

/-- One step of the per-rank loop in `generate_fen`: accumulate a run of
empty squares, or flush the run-length digit and append the piece letter. -/
def fenRankStep (b : Board) (rank : Nat) (pr : Nat × List Char) (file : Nat) :
    Nat × List Char :=
  let piece := b.get_piece_at ⟨rank, file⟩
  if piece = '.' then (pr.1 + 1, pr.2)
  else (0, pr.2 ++ (if pr.1 > 0 then natToString pr.1 else []) ++ [piece])

/-- The complete rank substring for `rank`, with the final run flushed. -/
def fenRankStr (b : Board) (rank : Nat) : List Char :=
  let pr := (List.range 8).foldl (fenRankStep b rank) (0, [])
  pr.2 ++ (if pr.1 > 0 then natToString pr.1 else [])

/-- The piece-placement field: ranks 8 down to 1 joined by `'/'`. -/
def fenPlacement (b : Board) : List Char :=
  List.intercalate ['/'] ((List.range 8).reverse.map (fenRankStr b))

/-- The castling-availability field. -/
def castlingStr (r : CastlingRights) : List Char :=
  let s := (if r.K then ['K'] else []) ++ (if r.Q then ['Q'] else []) ++
           (if r.k then ['k'] else []) ++ (if r.q then ['q'] else [])
  if s = [] then ['-'] else s

/-- The en-passant field: `self.en_passant_target.notation if
self.en_passant_target else '-'`.  The truthiness test is on the `IntEnum`
member itself, whose 0x88 value is `rank * 16 + file`: square a1 (value 0)
is falsy, so an a1 target prints `'-'` exactly like `None`. -/
def epStr (e : Option Square) : List Char :=
  match e with
  | some sq => if sq.rank * 16 + sq.file ≠ 0 then sq.toAlg else ['-']
  | none => ['-']

/-- `Board.generate_fen`: the placement field, `' w '` or `' b '`, the
castling field, and the blank-prefixed en-passant, halfmove and fullmove
fields, exactly as concatenated by the source. -/
def Board.generate_fen (b : Board) : List Char :=
  fenPlacement b ++
    ' ' :: (if b.white_to_move then 'w' else 'b') ::
    ' ' :: (castlingStr b.castling_rights ++
      ' ' :: (epStr b.en_passant_target ++
        ' ' :: (intToString b.halfmove_clock ++
          ' ' :: intToString b.fullmove_number)))

/-! ## Attack computation (`Board.get_sliding_attacks`, `Board.get_attacks`)

`get_sliding_attacks` walks each direction from the square.  Its guard
against wrapping, `abs(current_file - file) > 7`, is kept verbatim.  Note
that the source updates the *shared* `file` variable as it walks, carrying
it over from one direction to the next; the embedding threads that value
through the fold.  The `while True` loop is embedded with fuel: each
iteration moves `current_square` by the non-zero direction, so the walk
leaves `[0, 63]` (and breaks) after at most 64 iterations. -/

/-- One ray of `get_sliding_attacks`: returns the attack bits of the ray and
the final value of the mutated `file` variable. -/
def slideRay (allPieces : Nat) (d : Int) : Nat → Int → Int → Nat × Int
  | 0, _, file => (0, file)
  | fuel + 1, cur, file =>
    let c : Int := cur + d
    let currentFile : Int := c % 8
    if c < 0 ∨ c > 63 ∨ (currentFile - file).natAbs > 7 then (0, file)
    else
      let bit := 1 <<< c.toNat
      if allPieces &&& bit ≠ 0 then (bit, file)
      else
        let pr := slideRay allPieces d fuel c.toNat currentFile
        (bit ||| pr.1, pr.2)

/-- `Board.get_sliding_attacks`. -/
def Board.get_sliding_attacks (b : Board) (sq : Square) (directions : List Int) : Nat :=
  let squareIndex := sq.toIdx
  (directions.foldl
    (fun (acc : Nat × Int) d =>
      let pr := slideRay b.all_pieces d 100 squareIndex acc.2
      (acc.1 ||| pr.1, pr.2))
    (0, (squareIndex % 8 : Int))).1

-- The direction constants of the source.
def dirNORTH : Int := 8
def dirSOUTH : Int := -8
def dirEAST : Int := 1
def dirWEST : Int := -1
def dirNORTH_EAST : Int := 9
def dirNORTH_WEST : Int := 7
def dirSOUTH_EAST : Int := -7
def dirSOUTH_WEST : Int := -9

def knightOffsets : List (Int × Int) :=
  [(2, 1), (2, -1), (-2, 1), (-2, -1), (1, 2), (1, -2), (-1, 2), (-1, -2)]

/-- `Board.get_attacks`: pseudo-attack bitboard of the piece occupying the
square (empty square gives 0). -/
def Board.get_attacks (b : Board) (sq : Square) : Nat :=
  let piece := b.get_piece_at sq
  if piece = '.' then 0
  else
    let isWhite := piece.isUpper
    let pieceU := piece.toUpper
    let squareIndex := sq.toIdx
    if pieceU = 'P' then
      if isWhite then
        (if squareIndex % 8 > 0 then 1 <<< (squareIndex + 7) else 0) |||
        (if squareIndex % 8 < 7 then 1 <<< (squareIndex + 9) else 0)
      else
        (if squareIndex % 8 > 0 then 1 <<< (squareIndex - 9) else 0) |||
        (if squareIndex % 8 < 7 then 1 <<< (squareIndex - 7) else 0)
    else if pieceU = 'N' then
      knightOffsets.foldl
        (fun acc rm =>
          let newRank : Int := (squareIndex / 8 : Nat) + rm.1
          let newFile : Int := (squareIndex % 8 : Nat) + rm.2
          if 0 ≤ newRank ∧ newRank < 8 ∧ 0 ≤ newFile ∧ newFile < 8 then
            acc ||| (1 <<< (newRank * 8 + newFile).toNat)
          else acc) 0
    else if pieceU = 'B' then
      b.get_sliding_attacks sq [dirNORTH_EAST, dirNORTH_WEST, dirSOUTH_EAST, dirSOUTH_WEST]
    else if pieceU = 'R' then
      b.get_sliding_attacks sq [dirNORTH, dirSOUTH, dirEAST, dirWEST]
    else if pieceU = 'Q' then
      b.get_sliding_attacks sq [dirNORTH, dirSOUTH, dirEAST, dirWEST,
        dirNORTH_EAST, dirNORTH_WEST, dirSOUTH_EAST, dirSOUTH_WEST]
    else if pieceU = 'K' then
      [dirNORTH, dirSOUTH, dirEAST, dirWEST,
       dirNORTH_EAST, dirNORTH_WEST, dirSOUTH_EAST, dirSOUTH_WEST].foldl
        (fun acc d =>
          let newSquare : Int := (squareIndex : Int) + d
          let newRank : Int := newSquare / 8
          let newFile : Int := newSquare % 8
          if 0 ≤ newSquare ∧ newSquare < 64 ∧
             (newFile - (squareIndex % 8 : Nat)).natAbs ≤ 1 ∧
             (newRank - (squareIndex / 8 : Nat)).natAbs ≤ 1 then
            acc ||| (1 <<< newSquare.toNat)
          else acc) 0
    else 0

/-! ## `Board.is_square_attacked` -/

/-- The diagonal ray walk of `is_square_attacked`: tracks the previous
square's coordinates, breaks once the per-step rank and file deltas
disagree, and reports whether the first piece met is an attacking bishop
or queen of `byWhite`'s colour. -/
def attackedDiagWalk (b : Board) (byWhite : Bool) (d : Int) :
    Nat → Int → Int → Int → Bool
  | 0, _, _, _ => false
  | fuel + 1, cur, curRank, curFile =>
    let c : Int := cur + d
    let newRank : Int := c / 8
    let newFile : Int := c % 8
    if c < 0 ∨ c > 63 ∨ (newRank - curRank).natAbs ≠ (newFile - curFile).natAbs then
      false
    else
      let piece := b.get_piece_at (Square.fromBB c.toNat)
      if piece ≠ '.' then
        if byWhite then piece = 'B' ∨ piece = 'Q'
        else piece = 'b' ∨ piece = 'q'
      else attackedDiagWalk b byWhite d fuel c.toNat newRank newFile

/-- The straight ray walk of `is_square_attacked`, breaking when an
east/west step changes rank or a north/south step changes file. -/
def attackedStraightWalk (b : Board) (byWhite : Bool) (d : Int) :
    Nat → Int → Int → Int → Bool
  | 0, _, _, _ => false
  | fuel + 1, cur, curRank, curFile =>
    let c : Int := cur + d
    let newRank : Int := c / 8
    let newFile : Int := c % 8
    if c < 0 ∨ c > 63 ∨
       ((d = dirEAST ∨ d = dirWEST) ∧ newRank ≠ curRank) ∨
       ((d = dirNORTH ∨ d = dirSOUTH) ∧ newFile ≠ curFile) then
      false
    else
      let piece := b.get_piece_at (Square.fromBB c.toNat)
      if piece ≠ '.' then
        if byWhite then piece = 'R' ∨ piece = 'Q'
        else piece = 'r' ∨ piece = 'q'
      else attackedStraightWalk b byWhite d fuel c.toNat newRank newFile

def kingOffsets : List (Int × Int) :=
  [(1, 0), (1, 1), (0, 1), (-1, 1), (-1, 0), (-1, -1), (0, -1), (1, -1)]

/-- `Board.is_square_attacked(square, by_white)`. -/
def Board.is_square_attacked (b : Board) (sq : Square) (byWhite : Bool) : Bool :=
  let squareIdx := sq.toIdx
  let rank := squareIdx / 8
  let file := squareIdx % 8
  -- pawn attacks
  let pawnHit :=
    if byWhite then
      ([(file : Int) - 1, (file : Int) + 1]).any (fun af =>
        decide (0 ≤ af ∧ af < 8 ∧ rank > 0) &&
          (b.get_piece_at ⟨rank - 1, af.toNat⟩ = 'P'))
    else
      ([(file : Int) - 1, (file : Int) + 1]).any (fun af =>
        decide (0 ≤ af ∧ af < 8 ∧ rank < 7) &&
          (b.get_piece_at ⟨rank + 1, af.toNat⟩ = 'p'))
  if pawnHit then true
  else
    -- knight attacks
    let knightHit := knightOffsets.any (fun rm =>
      let newRank : Int := (rank : Int) + rm.1
      let newFile : Int := (file : Int) + rm.2
      decide (0 ≤ newRank ∧ newRank < 8 ∧ 0 ≤ newFile ∧ newFile < 8) &&
        (b.get_piece_at ⟨newRank.toNat, newFile.toNat⟩ =
          (if byWhite then 'N' else 'n')))
    if knightHit then true
    else
      -- sliding piece attacks
      let diagHit := [dirNORTH_EAST, dirNORTH_WEST, dirSOUTH_EAST, dirSOUTH_WEST].any
        (fun d => attackedDiagWalk b byWhite d 100 squareIdx rank file)
      if diagHit then true
      else
        let straightHit := [dirNORTH, dirSOUTH, dirEAST, dirWEST].any
          (fun d => attackedStraightWalk b byWhite d 100 squareIdx rank file)
        if straightHit then true
        else
          -- king attacks
          kingOffsets.any (fun rm =>
            let newRank : Int := (rank : Int) + rm.1
            let newFile : Int := (file : Int) + rm.2
            decide (0 ≤ newRank ∧ newRank < 8 ∧ 0 ≤ newFile ∧ newFile < 8) &&
              (b.get_piece_at ⟨newRank.toNat, newFile.toNat⟩ =
                (if byWhite then 'K' else 'k')))

/-- `Board.is_in_check(white)`: find the first set bit of that colour's king
bitboard (scanning indices 0–63) and test attack by the other colour;
`False` if no king bit is found. -/
def Board.is_in_check (b : Board) (white : Bool) : Bool :=
  let kingBB := if white then b.white_king else b.black_king
  match (List.range 64).find? (fun i => kingBB &&& (1 <<< i) != 0) with
  | none => false
  | some i => b.is_square_attacked (Square.fromBB i) (!white)

/-! ## Move application (`Board.make_move`)

The source saves `old_state = self.__dict__.copy()` on entry and restores
`self.__dict__ = old_state` when the moved side would be left in check.
Up to that point every mutation reassigns an (immutable) int attribute, so
restoring the attribute dict restores the pre-call state exactly; the
`castling_rights` dict is mutated in place only *after* the legality check
succeeds.  Hence the embedding returns the original board on both failure
paths.  The castling-rights update runs after `white_to_move` has already
been flipped, exactly as in the source. -/

/-- The capture/move update applied to each of the twelve bitboards: a piece
on the destination square is removed, and the bitboard containing the
source square has that bit moved to the destination (the source computes
`(current_bb & ~from_mask) | to_mask` from the value read before the
capture update). -/
def moveBB (fromMask toMask bb : Nat) : Nat :=
  let afterCapture := if bb &&& toMask ≠ 0 then clearBits bb toMask else bb
  if bb &&& fromMask ≠ 0 then clearBits bb fromMask ||| toMask else afterCapture

/-- The `for piece_bb in (...)` loop of `make_move` over all twelve bitboards. -/
def Board.moveAllBitboards (b : Board) (fromMask toMask : Nat) : Board :=
  { b with
    white_pawns := moveBB fromMask toMask b.white_pawns
    white_knights := moveBB fromMask toMask b.white_knights
    white_bishops := moveBB fromMask toMask b.white_bishops
    white_rooks := moveBB fromMask toMask b.white_rooks
    white_queens := moveBB fromMask toMask b.white_queens
    white_king := moveBB fromMask toMask b.white_king
    black_pawns := moveBB fromMask toMask b.black_pawns
    black_knights := moveBB fromMask toMask b.black_knights
    black_bishops := moveBB fromMask toMask b.black_bishops
    black_rooks := moveBB fromMask toMask b.black_rooks
    black_queens := moveBB fromMask toMask b.black_queens
    black_king := moveBB fromMask toMask b.black_king }

/-- The castling branch of `make_move`: relocate the rook of the side to
move (the king itself is moved by the bitboard loop).  Note the source
blindly clears `rook_from` and sets `rook_to` in the rook bitboard. -/
def Board.castleRook (b : Board) (flag : MoveFlag) : Board :=
  let rookFrom := if flag = MoveFlag.KING_CASTLE
                  then (if b.white_to_move then sqH1 else sqH8)
                  else (if b.white_to_move then sqA1 else sqA8)
  let rookTo := if flag = MoveFlag.KING_CASTLE
                then (if b.white_to_move then sqF1 else sqF8)
                else (if b.white_to_move then sqD1 else sqD8)
  if b.white_to_move then
    { b with white_rooks :=
        clearBits b.white_rooks (1 <<< rookFrom.toIdx) ||| (1 <<< rookTo.toIdx) }
  else
    { b with black_rooks :=
        clearBits b.black_rooks (1 <<< rookFrom.toIdx) ||| (1 <<< rookTo.toIdx) }

/-- The promotion branch of `make_move`: remove the mover's pawn from the
destination and add the promoted piece there.  (For every promotion flag
`get_promotion_piece` returns one of `Q R B N`; on any other value the
source would raise `NameError`, which cannot happen under `is_promotion`,
so the final catch-all leaves the board unchanged.) -/
def Board.applyPromotion (b : Board) (m : Move) (toMask : Nat) : Board :=
  let b1 := if b.white_to_move
            then { b with white_pawns := clearBits b.white_pawns toMask }
            else { b with black_pawns := clearBits b.black_pawns toMask }
  let pp := m.get_promotion_piece
  if pp = ['Q'] then
    if b1.white_to_move then { b1 with white_queens := b1.white_queens ||| toMask }
    else { b1 with black_queens := b1.black_queens ||| toMask }
  else if pp = ['R'] then
    if b1.white_to_move then { b1 with white_rooks := b1.white_rooks ||| toMask }
    else { b1 with black_rooks := b1.black_rooks ||| toMask }
  else if pp = ['B'] then
    if b1.white_to_move then { b1 with white_bishops := b1.white_bishops ||| toMask }
    else { b1 with black_bishops := b1.black_bishops ||| toMask }
  else if pp = ['N'] then
    if b1.white_to_move then { b1 with white_knights := b1.white_knights ||| toMask }
    else { b1 with black_knights := b1.black_knights ||| toMask }
  else b1

/-- Steps 2–6 of `make_move` (before the legality check): the castling rook
relocation, the capture/move bitboard loop, the promotion replacement, and
`update_position_masks`. -/
def Board.makeMoveApplyPieces (b : Board) (m : Move) : Board :=
  let fromMask := 1 <<< m.from_square.toIdx
  let toMask := 1 <<< m.to_square.toIdx
  let b1 := if m.is_castling then b.castleRook m.flag else b
  let b2 := b1.moveAllBitboards fromMask toMask
  let b3 := if m.is_promotion then b2.applyPromotion m toMask else b2
  b3.update_position_masks

/-- Steps 8–9 of `make_move` (after the legality check): flip the side to
move, bump the fullmove number, and update the castling rights — the
rights update tests `white_to_move` *after* it has already been flipped,
exactly as the source does. -/
def Board.makeMoveUpdateState (b4 : Board) (piece : Char) (m : Move) : Board :=
  let b5 := { b4 with white_to_move := !b4.white_to_move }
  let b6 := if !b5.white_to_move
            then { b5 with fullmove_number := b5.fullmove_number + 1 }
            else b5
  if piece.toUpper = 'K' then
    if b6.white_to_move then
      { b6 with castling_rights :=
          { b6.castling_rights with K := false, Q := false } }
    else
      { b6 with castling_rights :=
          { b6.castling_rights with k := false, q := false } }
  else if piece.toUpper = 'R' then
    if m.from_square = sqA1 then
      { b6 with castling_rights := { b6.castling_rights with Q := false } }
    else if m.from_square = sqH1 then
      { b6 with castling_rights := { b6.castling_rights with K := false } }
    else if m.from_square = sqA8 then
      { b6 with castling_rights := { b6.castling_rights with q := false } }
    else if m.from_square = sqH8 then
      { b6 with castling_rights := { b6.castling_rights with k := false } }
    else b6
  else b6

/-- `Board.make_move`: returns the success flag and the resulting board
(the pre-call board on failure, exactly what restoring the saved
`__dict__` yields). -/
def Board.make_move (b : Board) (m : Move) : Bool × Board :=
  if b.get_piece_at m.from_square = '.' ∨
     (b.get_piece_at m.from_square).isUpper ≠ b.white_to_move then (false, b)
  else
    if (b.makeMoveApplyPieces m).is_in_check (b.makeMoveApplyPieces m).white_to_move then
      (false, b)
    else
      (true, (b.makeMoveApplyPieces m).makeMoveUpdateState
        (b.get_piece_at m.from_square) m)

/-! ## Move generation (`Board.get_legal_*_moves`, `Board.get_legal_moves`) -/

/-- `Board.get_legal_pawn_moves`. -/
def Board.get_legal_pawn_moves (b : Board) (sq : Square) : List Move :=
  let squareIdx := sq.toIdx
  let rank := squareIdx / 8
  let file := squareIdx % 8
  -- the en-passant comparison `self.en_passant_target and target == self.en_passant_target`;
  -- a Square whose 0x88 value is 0 (a1) is falsy in Python
  let epMatches := fun (target : Square) =>
    match b.en_passant_target with
    | some t => decide (t.rank * 16 + t.file ≠ 0) && (target = t)
    | none => false
  if b.white_to_move then
    let forward :=
      if rank < 7 then
        let target : Square := ⟨rank + 1, file⟩
        if b.get_piece_at target = '.' then
          (if rank = 6 then
            [Move.mk sq target MoveFlag.PROMOTION_Q,
             Move.mk sq target MoveFlag.PROMOTION_R,
             Move.mk sq target MoveFlag.PROMOTION_B,
             Move.mk sq target MoveFlag.PROMOTION_N]
          else [Move.mk sq target MoveFlag.QUIET]) ++
          (if rank = 1 then
            let target2 : Square := ⟨rank + 2, file⟩
            if b.get_piece_at target2 = '.' then
              [Move.mk sq target2 MoveFlag.DOUBLE_PAWN_PUSH]
            else []
          else [])
        else []
      else []
    let captures :=
      ([(file : Int) - 1, (file : Int) + 1]).foldl (fun acc cf =>
        if 0 ≤ cf ∧ cf < 8 ∧ rank < 7 then
          let target : Square := ⟨rank + 1, cf.toNat⟩
          let pieceAtTarget := b.get_piece_at target
          acc ++
          (if pieceAtTarget ≠ '.' ∧ pieceAtTarget.isLower then
            if rank = 6 then
              [Move.mk sq target MoveFlag.PROMOTION_CAPTURE_Q,
               Move.mk sq target MoveFlag.PROMOTION_CAPTURE_R,
               Move.mk sq target MoveFlag.PROMOTION_CAPTURE_B,
               Move.mk sq target MoveFlag.PROMOTION_CAPTURE_N]
            else [Move.mk sq target MoveFlag.CAPTURE]
          else []) ++
          (if epMatches target then [Move.mk sq target MoveFlag.EN_PASSANT] else [])
        else acc) []
    forward ++ captures
  else
    let forward :=
      if rank > 0 then
        let target : Square := ⟨rank - 1, file⟩
        if b.get_piece_at target = '.' then
          (if rank = 1 then
            [Move.mk sq target MoveFlag.PROMOTION_Q,
             Move.mk sq target MoveFlag.PROMOTION_R,
             Move.mk sq target MoveFlag.PROMOTION_B,
             Move.mk sq target MoveFlag.PROMOTION_N]
          else [Move.mk sq target MoveFlag.QUIET]) ++
          (if rank = 6 then
            let target2 : Square := ⟨rank - 2, file⟩
            if b.get_piece_at target2 = '.' then
              [Move.mk sq target2 MoveFlag.DOUBLE_PAWN_PUSH]
            else []
          else [])
        else []
      else []
    let captures :=
      ([(file : Int) - 1, (file : Int) + 1]).foldl (fun acc cf =>
        if 0 ≤ cf ∧ cf < 8 ∧ rank > 0 then
          let target : Square := ⟨rank - 1, cf.toNat⟩
          let pieceAtTarget := b.get_piece_at target
          acc ++
          (if pieceAtTarget ≠ '.' ∧ pieceAtTarget.isUpper then
            if rank = 1 then
              [Move.mk sq target MoveFlag.PROMOTION_CAPTURE_Q,
               Move.mk sq target MoveFlag.PROMOTION_CAPTURE_R,
               Move.mk sq target MoveFlag.PROMOTION_CAPTURE_B,
               Move.mk sq target MoveFlag.PROMOTION_CAPTURE_N]
            else [Move.mk sq target MoveFlag.CAPTURE]
          else []) ++
          (if epMatches target then [Move.mk sq target MoveFlag.EN_PASSANT] else [])
        else acc) []
    forward ++ captures

/-- `Board.get_legal_knight_moves`. -/
def Board.get_legal_knight_moves (b : Board) (sq : Square) : List Move :=
  let squareIdx := sq.toIdx
  let rank := squareIdx / 8
  let file := squareIdx % 8
  knightOffsets.foldl (fun acc rm =>
    let newRank : Int := (rank : Int) + rm.1
    let newFile : Int := (file : Int) + rm.2
    if 0 ≤ newRank ∧ newRank < 8 ∧ 0 ≤ newFile ∧ newFile < 8 then
      let target : Square := ⟨newRank.toNat, newFile.toNat⟩
      let targetPiece := b.get_piece_at target
      if targetPiece = '.' ∨ (b.white_to_move ∧ targetPiece.isLower) ∨
         (¬b.white_to_move ∧ targetPiece.isUpper) then
        acc ++ [Move.mk sq target
          (if targetPiece ≠ '.' then MoveFlag.CAPTURE else MoveFlag.QUIET)]
      else acc
    else acc) []

/-- One ray of `Board.get_legal_sliding_moves`, with the source's wraparound
checks (which, unlike `get_sliding_attacks`, compare per-step deltas). -/
def slidingMovesRay (b : Board) (sq : Square) (d : Int) :
    Nat → Int → Int → Int → List Move
  | 0, _, _, _ => []
  | fuel + 1, cur, curRank, curFile =>
    let c : Int := cur + d
    let newRank : Int := c / 8
    let newFile : Int := c % 8
    if c < 0 ∨ c > 63 then []
    else
      let rankDiff := (newRank - curRank).natAbs
      let fileDiff := (newFile - curFile).natAbs
      if ((d = dirEAST ∨ d = dirWEST) ∧ rankDiff ≠ 0) ∨
         ((d = dirNORTH ∨ d = dirSOUTH) ∧ fileDiff ≠ 0) ∨
         ((d = dirNORTH_EAST ∨ d = dirNORTH_WEST ∨ d = dirSOUTH_EAST ∨ d = dirSOUTH_WEST) ∧
           ((rankDiff : Int) - (fileDiff : Int)).natAbs ≠ 0) then []
      else
        let target := Square.fromBB c.toNat
        let targetPiece := b.get_piece_at target
        if targetPiece = '.' then
          Move.mk sq target MoveFlag.QUIET ::
            slidingMovesRay b sq d fuel c.toNat newRank newFile
        else if (b.white_to_move ∧ targetPiece.isLower) ∨
                (¬b.white_to_move ∧ targetPiece.isUpper) then
          [Move.mk sq target MoveFlag.CAPTURE]
        else []

/-- `Board.get_legal_sliding_moves`. -/
def Board.get_legal_sliding_moves (b : Board) (sq : Square) (directions : List Int) :
    List Move :=
  let squareIdx := sq.toIdx
  directions.foldl (fun acc d =>
    acc ++ slidingMovesRay b sq d 100 squareIdx (squareIdx / 8 : Nat) (squareIdx % 8 : Nat)) []

/-- `Board.get_legal_king_moves`, including castling generation. -/
def Board.get_legal_king_moves (b : Board) (sq : Square) : List Move :=
  let squareIdx := sq.toIdx
  let rank := squareIdx / 8
  let file := squareIdx % 8
  let normal := kingOffsets.foldl (fun acc rm =>
    let newRank : Int := (rank : Int) + rm.1
    let newFile : Int := (file : Int) + rm.2
    if 0 ≤ newRank ∧ newRank < 8 ∧ 0 ≤ newFile ∧ newFile < 8 then
      let target : Square := ⟨newRank.toNat, newFile.toNat⟩
      let targetPiece := b.get_piece_at target
      if targetPiece = '.' ∨ (b.white_to_move ∧ targetPiece.isLower) ∨
         (¬b.white_to_move ∧ targetPiece.isUpper) then
        acc ++ [Move.mk sq target
          (if targetPiece ≠ '.' then MoveFlag.CAPTURE else MoveFlag.QUIET)]
      else acc
    else acc) []
  let castles :=
    if b.white_to_move then
      (if b.castling_rights.K ∧ sq = sqE1 ∧
          b.get_piece_at sqF1 = '.' ∧ b.get_piece_at sqG1 = '.' ∧
          ¬b.is_square_attacked sqE1 false ∧
          ¬b.is_square_attacked sqF1 false ∧
          ¬b.is_square_attacked sqG1 false then
        [Move.mk sqE1 sqG1 MoveFlag.KING_CASTLE]
      else []) ++
      (if b.castling_rights.Q ∧ sq = sqE1 ∧
          b.get_piece_at sqD1 = '.' ∧ b.get_piece_at sqC1 = '.' ∧
          b.get_piece_at sqB1 = '.' ∧
          ¬b.is_square_attacked sqE1 false ∧
          ¬b.is_square_attacked sqD1 false ∧
          ¬b.is_square_attacked sqC1 false then
        [Move.mk sqE1 sqC1 MoveFlag.QUEEN_CASTLE]
      else [])
    else
      (if b.castling_rights.k ∧ sq = sqE8 ∧
          b.get_piece_at sqF8 = '.' ∧ b.get_piece_at sqG8 = '.' ∧
          ¬b.is_square_attacked sqE8 true ∧
          ¬b.is_square_attacked sqF8 true ∧
          ¬b.is_square_attacked sqG8 true then
        [Move.mk sqE8 sqG8 MoveFlag.KING_CASTLE]
      else []) ++
      (if b.castling_rights.q ∧ sq = sqE8 ∧
          b.get_piece_at sqD8 = '.' ∧ b.get_piece_at sqC8 = '.' ∧
          b.get_piece_at sqB8 = '.' ∧
          ¬b.is_square_attacked sqE8 true ∧
          ¬b.is_square_attacked sqD8 true ∧
          ¬b.is_square_attacked sqC8 true then
        [Move.mk sqE8 sqC8 MoveFlag.QUEEN_CASTLE]
      else [])
  normal ++ castles

/-- The pseudo-legal generation phase of `Board.get_legal_moves`: scan the
64 squares, skip empty and opposing squares, and dispatch on piece type. -/
def Board.pseudoMoves (b : Board) : List Move :=
  (List.range 64).foldl (fun acc squareIdx =>
    let sq := Square.fromBB squareIdx
    let piece := b.get_piece_at sq
    if piece = '.' ∨ (b.white_to_move ∧ piece.isLower) ∨
       (¬b.white_to_move ∧ piece.isUpper) then acc
    else
      let pieceType := piece.toUpper
      acc ++
      (if pieceType = 'P' then b.get_legal_pawn_moves sq
       else if pieceType = 'N' then b.get_legal_knight_moves sq
       else if pieceType = 'B' then
         b.get_legal_sliding_moves sq
           [dirNORTH_EAST, dirNORTH_WEST, dirSOUTH_EAST, dirSOUTH_WEST]
       else if pieceType = 'R' then
         b.get_legal_sliding_moves sq [dirNORTH, dirSOUTH, dirEAST, dirWEST]
       else if pieceType = 'Q' then
         b.get_legal_sliding_moves sq
           [dirNORTH, dirSOUTH, dirEAST, dirWEST,
            dirNORTH_EAST, dirNORTH_WEST, dirSOUTH_EAST, dirSOUTH_WEST]
       else if pieceType = 'K' then b.get_legal_king_moves sq
       else [])) []

/-- The legality-filter phase of `Board.get_legal_moves`.  The source saves
`old_state = self.__dict__.copy()` (a *shallow* copy) before each trial
`make_move` and restores `self.__dict__ = old_state` afterwards.  The
`castling_rights` entry of both dicts is the *same* dict object, and a
successful trial `make_move` mutates it in place, so the restore brings
back every attribute except the castling-rights contents, which keep the
trial's mutations.  The fold therefore threads the castling-rights value
through the trials while restoring everything else, and the final board
carries the accumulated castling-rights mutations. -/
def Board.get_legal_moves (b : Board) : List Move × Board :=
  let pr := b.pseudoMoves.foldl
    (fun (acc : List Move × CastlingRights) mv =>
      let bTry := { b with castling_rights := acc.2 }
      let res := bTry.make_move mv
      ((if res.1 then acc.1 ++ [mv] else acc.1), res.2.castling_rights))
    ([], b.castling_rights)
  (pr.1, { b with castling_rights := pr.2 })

/-- `Board.is_checkmate`: in check and no legal moves.  Returns the board
observable after the call (mutated through the shared castling dict
whenever `get_legal_moves` runs). -/
def Board.is_checkmate (b : Board) : Bool × Board :=
  if ¬b.is_in_check b.white_to_move then (false, b)
  else
    let pr := b.get_legal_moves
    (pr.1.length = 0, pr.2)

/-- `Board.is_stalemate`: not in check and no legal moves. -/
def Board.is_stalemate (b : Board) : Bool × Board :=
  if b.is_in_check b.white_to_move then (false, b)
  else
    let pr := b.get_legal_moves
    (pr.1.length = 0, pr.2)

/-! ## Evaluation: static exchange evaluation (`agent/evaluation.py`)

Only the state and functions used by the exchange evaluator are embedded:
the `Evaluation.__init__` caches (piece sets, attack maps) and the
`_evaluate_single_exchange` / `_evaluate_piece_exchanges` pair.  Loops of
the form `while bb: … ; bb &= bb - 1` are embedded by well-founded
recursion on the bitboard. -/

/-- `EXCHANGE_VALUES.get(piece_type, 0)` for a one-character piece type. -/
def exchangeValueC (c : Char) : Int :=
  if c = 'P' then 100
  else if c = 'N' then 325
  else if c = 'B' then 335
  else if c = 'R' then 500
  else if c = 'Q' then 975
  else if c = 'K' then 20000
  else 0

/-- `EXCHANGE_THRESHOLD`. -/
def EXCHANGE_THRESHOLD : Int := 20

def FILE_MASKS : List Nat := (List.range 8).map (fun i => 0x0101010101010101 <<< i)
def RANK_MASKS : List Nat := (List.range 8).map (fun i => 0xFF <<< (8 * i))

def KNIGHT_ATTACKS : List Nat :=
  [0x0000000000020400, 0x0000000000050800, 0x00000000000A1100, 0x0000000000142200,
   0x0000000000284400, 0x0000000000508800, 0x0000000000A01000, 0x0000000000402000]

def KING_ATTACKS : List Nat :=
  [0x0000000000000302, 0x0000000000000705, 0x0000000000000E0A, 0x0000000000001C14,
   0x0000000000003828, 0x0000000000007050, 0x000000000000E0A0, 0x000000000000C040]

def DIAGONAL_MASKS : List Nat :=
  [0x8040201008040201, 0x4020100804020100, 0x2010080402010000, 0x1008040201000000,
   0x0804020100000000, 0x0402010000000000, 0x0201000000000000, 0x0100000000000000]

def ANTI_DIAGONAL_MASKS : List Nat :=
  [0x0102040810204080, 0x0001020408102040, 0x0000010204081020, 0x0000000102040810,
   0x0000000001020408, 0x0000000000010204, 0x0000000000000102, 0x0000000000000001]

/-- `Evaluation._get_sliding_attacks(square, mask, blockers)` (the mask-based
variant used for the attack-map caches).  The source's
`0xFFFFFFFFFFFFFFFF >> (64 - square)` raises for `square > 64`; that is
unreachable for 64-bit boards and the embedding truncates the subtraction. -/
def evalSlidingAttacks (square mask blockers : Nat) : Nat :=
  let forwardRay := mask &&& (if square < 63 then 0xFFFFFFFFFFFFFFFF <<< square else 0)
  let backwardRay := mask &&& (if square > 0 then 0xFFFFFFFFFFFFFFFF >>> (64 - square) else 0)
  let forwardBlocker := forwardRay &&& blockers
  let backwardBlocker := backwardRay &&& blockers
  let forwardRay2 :=
    if forwardBlocker ≠ 0 then
      let firstBlocker := 1 <<< (getLsb forwardBlocker).toNat
      forwardRay &&& (firstBlocker - 1)
    else forwardRay
  let backwardRay2 :=
    if backwardBlocker ≠ 0 then
      let firstBlocker := 1 <<< (63 - (getMsb backwardBlocker).toNat)
      clearBits backwardRay (firstBlocker - 1)
    else backwardRay
  forwardRay2 ||| backwardRay2

/-- `Evaluation._get_pawn_attacks`. -/
def evalPawnAttacks (pawns : Nat) (isWhite : Bool) : Nat :=
  if isWhite then
    ((pawns &&& (0xFFFFFFFFFFFFFFFF ^^^ FILE_MASKS.getD 0 0)) <<< 7) |||
    ((pawns &&& (0xFFFFFFFFFFFFFFFF ^^^ FILE_MASKS.getD 7 0)) <<< 9)
  else
    ((pawns &&& (0xFFFFFFFFFFFFFFFF ^^^ FILE_MASKS.getD 0 0)) >>> 9) |||
    ((pawns &&& (0xFFFFFFFFFFFFFFFF ^^^ FILE_MASKS.getD 7 0)) >>> 7)

/-- `Evaluation._get_knight_attacks`: pattern lookup per set bit. -/
def evalKnightAttacks (knights : Nat) : Nat :=
  if h : knights = 0 then 0
  else
    have : knights &&& (knights - 1) < knights :=
      Nat.lt_of_le_of_lt Nat.and_le_right (Nat.pred_lt h)
    let knightSquare := (getLsb knights).toNat
    let pattern := KNIGHT_ATTACKS.getD (knightSquare &&& 7) 0
    ((pattern <<< (8 * (knightSquare >>> 3))) &&& 0xFFFFFFFFFFFFFFFF) |||
      evalKnightAttacks (knights &&& (knights - 1))

/-- `Evaluation._get_diagonal_attacks`. -/
def evalDiagonalAttacks (allPieces square : Nat) : Nat :=
  let rank := square >>> 3
  let file := square &&& 7
  let diagIndex : Int := 7 + (file : Int) - (rank : Int)
  let antiDiagIndex : Int := (file : Int) + (rank : Int)
  let a1 :=
    if 0 ≤ diagIndex ∧ diagIndex < 8 then
      let diagMask := DIAGONAL_MASKS.getD diagIndex.toNat 0
      evalSlidingAttacks square diagMask (allPieces &&& diagMask)
    else 0
  let a2 :=
    if 0 ≤ antiDiagIndex ∧ antiDiagIndex < 8 then
      let antiDiagMask := ANTI_DIAGONAL_MASKS.getD antiDiagIndex.toNat 0
      evalSlidingAttacks square antiDiagMask (allPieces &&& antiDiagMask)
    else 0
  a1 ||| a2

/-- `Evaluation._get_orthogonal_attacks`. -/
def evalOrthogonalAttacks (allPieces square : Nat) : Nat :=
  let rank := square >>> 3
  let file := square &&& 7
  let rankMask := RANK_MASKS.getD rank 0
  let fileMask := FILE_MASKS.getD file 0
  evalSlidingAttacks square rankMask (allPieces &&& rankMask) |||
    evalSlidingAttacks square fileMask (allPieces &&& fileMask)

/-- `Evaluation._get_bishop_attacks`. -/
def evalBishopAttacks (allPieces bishops : Nat) : Nat :=
  if h : bishops = 0 then 0
  else
    have : bishops &&& (bishops - 1) < bishops :=
      Nat.lt_of_le_of_lt Nat.and_le_right (Nat.pred_lt h)
    evalDiagonalAttacks allPieces (getLsb bishops).toNat |||
      evalBishopAttacks allPieces (bishops &&& (bishops - 1))

/-- `Evaluation._get_rook_attacks`. -/
def evalRookAttacks (allPieces rooks : Nat) : Nat :=
  if h : rooks = 0 then 0
  else
    have : rooks &&& (rooks - 1) < rooks :=
      Nat.lt_of_le_of_lt Nat.and_le_right (Nat.pred_lt h)
    evalOrthogonalAttacks allPieces (getLsb rooks).toNat |||
      evalRookAttacks allPieces (rooks &&& (rooks - 1))

/-- `Evaluation._get_queen_attacks`. -/
def evalQueenAttacks (allPieces queens : Nat) : Nat :=
  if h : queens = 0 then 0
  else
    have : queens &&& (queens - 1) < queens :=
      Nat.lt_of_le_of_lt Nat.and_le_right (Nat.pred_lt h)
    (evalDiagonalAttacks allPieces (getLsb queens).toNat |||
      evalOrthogonalAttacks allPieces (getLsb queens).toNat) |||
      evalQueenAttacks allPieces (queens &&& (queens - 1))

/-- `Evaluation._get_king_attacks`. -/
def evalKingAttacks (king : Nat) : Nat :=
  if king = 0 then 0
  else
    let kingSquare := (getLsb king).toNat
    let pattern := KING_ATTACKS.getD (kingSquare &&& 7) 0
    (pattern <<< (8 * (kingSquare >>> 3))) &&& 0xFFFFFFFFFFFFFFFF

/-- The per-piece attack-map dict (`white_piece_attacks` /
`black_piece_attacks`), with keys in the insertion order `P N B R Q K`. -/
structure PieceAttacks where
  P : Nat
  N : Nat
  B : Nat
  R : Nat
  Q : Nat
  K : Nat
deriving DecidableEq, Repr

/-- `dict.items()` in insertion order. -/
def PieceAttacks.items (pa : PieceAttacks) : List (Char × Nat) :=
  [('P', pa.P), ('N', pa.N), ('B', pa.B), ('R', pa.R), ('Q', pa.Q), ('K', pa.K)]

/-- The parts of the `Evaluation` object state used by the exchange
evaluator. -/
structure Evaluation where
  board : Board
  white_pieces : Nat
  black_pieces : Nat
  all_pieces : Nat
  white_attacks : Nat
  black_attacks : Nat
  white_piece_attacks : PieceAttacks
  black_piece_attacks : PieceAttacks
deriving Repr

/-- `Evaluation.__init__` (the cached piece sets and `_init_attack_maps`);
note that the combined attack fields are `sum(...)` of the six maps —
integer addition, not union — exactly as in the source. -/
def Evaluation.init (b : Board) : Evaluation :=
  let whitePieces := b.white_pawns ||| b.white_knights ||| b.white_bishops |||
                     b.white_rooks ||| b.white_queens ||| b.white_king
  let blackPieces := b.black_pawns ||| b.black_knights ||| b.black_bishops |||
                     b.black_rooks ||| b.black_queens ||| b.black_king
  let allPieces := whitePieces ||| blackPieces
  let wpa : PieceAttacks :=
    { P := evalPawnAttacks b.white_pawns true
      N := evalKnightAttacks b.white_knights
      B := evalBishopAttacks allPieces b.white_bishops
      R := evalRookAttacks allPieces b.white_rooks
      Q := evalQueenAttacks allPieces b.white_queens
      K := evalKingAttacks b.white_king }
  let bpa : PieceAttacks :=
    { P := evalPawnAttacks b.black_pawns false
      N := evalKnightAttacks b.black_knights
      B := evalBishopAttacks allPieces b.black_bishops
      R := evalRookAttacks allPieces b.black_rooks
      Q := evalQueenAttacks allPieces b.black_queens
      K := evalKingAttacks b.black_king }
  { board := b
    white_pieces := whitePieces
    black_pieces := blackPieces
    all_pieces := allPieces
    white_attacks := wpa.P + wpa.N + wpa.B + wpa.R + wpa.Q + wpa.K
    black_attacks := bpa.P + bpa.N + bpa.B + bpa.R + bpa.Q + bpa.K
    white_piece_attacks := wpa
    black_piece_attacks := bpa }

/-- `Evaluation._get_piece_type_at_square`: the piece-type letter of the
given colour on the square, or `''` (here `none`). -/
def Evaluation.get_piece_type_at_square (e : Evaluation) (square : Nat)
    (isWhite : Bool) : Option Char :=
  let bit := 1 <<< square
  let b := e.board
  if (if isWhite then b.white_pawns else b.black_pawns) &&& bit ≠ 0 then some 'P'
  else if (if isWhite then b.white_knights else b.black_knights) &&& bit ≠ 0 then some 'N'
  else if (if isWhite then b.white_bishops else b.black_bishops) &&& bit ≠ 0 then some 'B'
  else if (if isWhite then b.white_rooks else b.black_rooks) &&& bit ≠ 0 then some 'R'
  else if (if isWhite then b.white_queens else b.black_queens) &&& bit ≠ 0 then some 'Q'
  else if (if isWhite then b.white_king else b.black_king) &&& bit ≠ 0 then some 'K'
  else none

/-- `Evaluation._get_attackers_to_square`. -/
def Evaluation.get_attackers_to_square (e : Evaluation) (square : Nat)
    (isWhite : Bool) : List Char :=
  let pa := if isWhite then e.white_piece_attacks else e.black_piece_attacks
  pa.items.foldl
    (fun acc it => if it.2 &&& (1 <<< square) ≠ 0 then acc ++ [it.1] else acc) []

/-- `Evaluation._sort_pieces_by_value`: Python's stable `sorted` keyed by
exchange value. -/
def sortPiecesByValue (pieces : List Char) : List Char :=
  pieces.mergeSort (fun a b => decide (exchangeValueC a ≤ exchangeValueC b))

/-- The alternating capture loop of `_evaluate_single_exchange`: the source
iterates `i` over `range(min(len(attackers), len(defenders)))` and indexes
both lists at `i` (the guard `i < len(defender_list)` inside the loop is
always true), which is exactly a walk over their zip.  Breaks as soon as
the running value falls below `-EXCHANGE_THRESHOLD`. -/
def seeLoop : List (Char × Char) → Int → Int
  | [], currentValue => currentValue
  | (a, d) :: rest, currentValue =>
    let v1 := -currentValue + exchangeValueC a
    if v1 < -EXCHANGE_THRESHOLD then v1
    else
      let v2 := -v1 + exchangeValueC d
      if v2 < -EXCHANGE_THRESHOLD then v2
      else seeLoop rest v2

/-- `Evaluation._evaluate_single_exchange(target_square, is_white)`. -/
def Evaluation.evaluate_single_exchange (e : Evaluation) (targetSquare : Nat)
    (isWhite : Bool) : Int :=
  let targetType := e.get_piece_type_at_square targetSquare (!isWhite)
  let targetValue := match targetType with
                     | some c => exchangeValueC c
                     | none => 0
  let attackers := e.get_attackers_to_square targetSquare isWhite
  let defenders := e.get_attackers_to_square targetSquare (!isWhite)
  if attackers = [] then 0
  else
    let attackerList := sortPiecesByValue attackers
    let defenderList := sortPiecesByValue defenders
    let currentValue := seeLoop (attackerList.zip defenderList) targetValue
    if currentValue < 0 then -currentValue else 0

/-- The `while attacked_pieces` loop of `_evaluate_piece_exchanges`:
`score += exchange_value if is_white else -exchange_value` per attacked
square, stripping the lowest set bit each iteration. -/
def Evaluation.exchangeScoreLoop (e : Evaluation) (isWhite : Bool)
    (attackedPieces : Nat) : Int :=
  if h : attackedPieces = 0 then 0
  else
    have : attackedPieces &&& (attackedPieces - 1) < attackedPieces :=
      Nat.lt_of_le_of_lt Nat.and_le_right (Nat.pred_lt h)
    let targetSquare := (getLsb attackedPieces).toNat
    let exchangeValue := e.evaluate_single_exchange targetSquare isWhite
    (if isWhite then exchangeValue else -exchangeValue) +
      e.exchangeScoreLoop isWhite (attackedPieces &&& (attackedPieces - 1))

/-- `Evaluation._evaluate_piece_exchanges(is_white)`. -/
def Evaluation.evaluate_piece_exchanges (e : Evaluation) (isWhite : Bool) : Int :=
  let defenderPieces := if isWhite then e.black_pieces else e.white_pieces
  let attackedPieces :=
    (if isWhite then e.white_attacks else e.black_attacks) &&& defenderPieces
  e.exchangeScoreLoop isWhite attackedPieces

/-! ## Concrete positions used by the claim theorems -/

/-- The standard starting position (what `Board()` produces). -/
def startBoard : Board := Board.update_position_masks
  { white_pawns := 0xFF00, white_knights := 0x42, white_bishops := 0x24,
    white_rooks := 0x81, white_queens := 0x8, white_king := 0x10,
    black_pawns := 0xFF000000000000, black_knights := 0x4200000000000000,
    black_bishops := 0x2400000000000000, black_rooks := 0x8100000000000000,
    black_queens := 0x800000000000000, black_king := 0x1000000000000000,
    white_to_move := true,
    castling_rights := ⟨true, true, true, true⟩,
    en_passant_target := none, halfmove_clock := 0, fullmove_number := 1,
    white_pieces := 0, black_pieces := 0, all_pieces := 0 }

/-- FEN `4k3/8/8/8/8/8/8/4K2R w K - 0 1`: white king e1, white rook h1,
black king e8, white may castle king-side. -/
def bC1 : Board := Board.update_position_masks
  { white_pawns := 0, white_knights := 0, white_bishops := 0,
    white_rooks := 1 <<< 7, white_queens := 0, white_king := 1 <<< 4,
    black_pawns := 0, black_knights := 0, black_bishops := 0,
    black_rooks := 0, black_queens := 0, black_king := 1 <<< 60,
    white_to_move := true,
    castling_rights := ⟨true, false, false, false⟩,
    en_passant_target := none, halfmove_clock := 0, fullmove_number := 1,
    white_pieces := 0, black_pieces := 0, all_pieces := 0 }

/-- FEN `4k3/8/8/3pP3/8/8/8/4K3 w - d6 0 1`: black has just double-pushed
d7–d5 past the white pawn on e5; the en-passant target is d6. -/
def bC2 : Board := Board.update_position_masks
  { white_pawns := 1 <<< 36, white_knights := 0, white_bishops := 0,
    white_rooks := 0, white_queens := 0, white_king := 1 <<< 4,
    black_pawns := 1 <<< 35, black_knights := 0, black_bishops := 0,
    black_rooks := 0, black_queens := 0, black_king := 1 <<< 60,
    white_to_move := true,
    castling_rights := ⟨false, false, false, false⟩,
    en_passant_target := some ⟨5, 3⟩, halfmove_clock := 0, fullmove_number := 1,
    white_pieces := 0, black_pieces := 0, all_pieces := 0 }

/-- The en-passant capture e5xd6. -/
def mvEpC2 : Move := ⟨⟨4, 4⟩, ⟨5, 3⟩, MoveFlag.EN_PASSANT⟩

/-- The double pawn push e2–e4. -/
def mvE2E4 : Move := ⟨⟨1, 4⟩, ⟨3, 4⟩, MoveFlag.DOUBLE_PAWN_PUSH⟩

/-- FEN `r3k2r/8/8/8/8/8/8/R3K2R w KQkq - 0 1`. -/
def bC4 : Board := Board.update_position_masks
  { white_pawns := 0, white_knights := 0, white_bishops := 0,
    white_rooks := (1 <<< 0) ||| (1 <<< 7), white_queens := 0, white_king := 1 <<< 4,
    black_pawns := 0, black_knights := 0, black_bishops := 0,
    black_rooks := (1 <<< 56) ||| (1 <<< 63), black_queens := 0, black_king := 1 <<< 60,
    white_to_move := true,
    castling_rights := ⟨true, true, true, true⟩,
    en_passant_target := none, halfmove_clock := 0, fullmove_number := 1,
    white_pieces := 0, black_pieces := 0, all_pieces := 0 }

/-- The white king move e1–e2. -/
def mvKe1e2 : Move := ⟨⟨0, 4⟩, ⟨1, 4⟩, MoveFlag.QUIET⟩

/-- FEN `8/8/8/8/8/8/8/7R w - - 0 1`: a lone white rook on h1. -/
def bC5 : Board := Board.update_position_masks
  { white_pawns := 0, white_knights := 0, white_bishops := 0,
    white_rooks := 1 <<< 7, white_queens := 0, white_king := 0,
    black_pawns := 0, black_knights := 0, black_bishops := 0,
    black_rooks := 0, black_queens := 0, black_king := 0,
    white_to_move := true,
    castling_rights := ⟨false, false, false, false⟩,
    en_passant_target := none, halfmove_clock := 0, fullmove_number := 1,
    white_pieces := 0, black_pieces := 0, all_pieces := 0 }

/-- A quiet move from the empty square e3 (rejected by `make_move`). -/
def mvFromEmpty : Move := ⟨⟨2, 4⟩, ⟨3, 4⟩, MoveFlag.QUIET⟩

/-- FEN `rnbqkbnr/pppppppp/8/8/8/8/PPPPPPPP/RNBQK2R w KQkq - 0 1`: the
starting position with the white f1-bishop and g1-knight removed, so the
king-side castling pattern e1→g1 is playable. -/
def bC10 : Board := Board.update_position_masks
  { white_pawns := 0xFF00, white_knights := 0x2, white_bishops := 0x4,
    white_rooks := 0x81, white_queens := 0x8, white_king := 0x10,
    black_pawns := 0xFF000000000000, black_knights := 0x4200000000000000,
    black_bishops := 0x2400000000000000, black_rooks := 0x8100000000000000,
    black_queens := 0x800000000000000, black_king := 0x1000000000000000,
    white_to_move := true,
    castling_rights := ⟨true, true, true, true⟩,
    en_passant_target := none, halfmove_clock := 0, fullmove_number := 1,
    white_pieces := 0, black_pieces := 0, all_pieces := 0 }

/-- The king move e1–g1 as parsed from UCI `"e1g1"` (flag `QUIET`). -/
def mvE1G1 : Move := ⟨⟨0, 4⟩, ⟨0, 6⟩, MoveFlag.QUIET⟩

/-! ## Claim theorems -/

/-- C1 (refuted): `get_legal_moves` is claimed to leave the complete board
state unchanged, but on the position white Ke1, Rh1 (castling right `K`),
black Ke8 it permanently falsifies the white king-side castling right:
successful trial moves inside the legality filter mutate the
`castling_rights` dict in place, and restoring the shallow-copied
`__dict__` does not undo that. -/
theorem c1_get_legal_moves_mutates_castling_rights :
    bC1.castling_rights.K = true ∧
    (Board.get_legal_moves bC1).2.castling_rights.K = false := by
  constructor
  · rfl
  · decide

/-- C2 (refuted): the en-passant capture e5xd6 is generated and applied
successfully, yet the black pawn on d5 (bit 35), which double-pushed past
the target square, is still in `black_pawns` afterwards — `make_move`
has no en-passant branch at all. -/
theorem c2_en_passant_pawn_not_removed :
    (Board.get_legal_pawn_moves bC2 ⟨4, 4⟩).contains mvEpC2 = true ∧
    (Board.make_move bC2 mvEpC2).1 = true ∧
    (Board.make_move bC2 mvEpC2).2.black_pawns.testBit 35 = true := by
  refine ⟨by decide, by decide, by decide⟩

/-- C3 (refuted): after the double pawn push e2–e4 from the starting
position the en-passant target is claimed to be e3, but `make_move`
never assigns `en_passant_target`, so it stays `None`. -/
theorem c3_double_push_does_not_set_ep_target :
    (Board.make_move startBoard mvE2E4).1 = true ∧
    (Board.make_move startBoard mvE2E4).2.en_passant_target = none := by
  refine ⟨by decide, by decide⟩

/-- C4 (refuted): the white king move e1–e2 is claimed to clear both of
White's castling rights; instead the code, which tests `white_to_move`
after it has already been flipped, leaves `K` and `Q` set and clears
Black's `k` and `q`. -/
theorem c4_king_move_clears_opponents_rights :
    (Board.make_move bC4 mvKe1e2).1 = true ∧
    (Board.make_move bC4 mvKe1e2).2.castling_rights.K = true ∧
    (Board.make_move bC4 mvKe1e2).2.castling_rights.Q = true ∧
    (Board.make_move bC4 mvKe1e2).2.castling_rights.k = false ∧
    (Board.make_move bC4 mvKe1e2).2.castling_rights.q = false := by
  refine ⟨by decide, by decide, by decide, by decide, by decide⟩

/-- C5 (refuted): a lone rook on h1 attacks only along its file and rank by
the claim, yet `get_attacks` reports a2 (bit 8, neither h1's rank nor its
file) as attacked: the wraparound check `abs(current_file - file) > 7` of
`get_sliding_attacks` can never fire, so the east ray continues past h1
onto a2. -/
theorem c5_sliding_attacks_wrap_around_edge :
    (Board.get_attacks bC5 sqH1).testBit 8 = true ∧
    (Square.fromBB 8).rank ≠ sqH1.rank ∧
    (Square.fromBB 8).file ≠ sqH1.file := by
  refine ⟨by decide, by decide, by decide⟩

/-- C6 (confirmed): whenever `make_move` reports failure the returned board
is exactly the board before the call — both failure paths (no piece or
wrong-colour piece on the source square; mover left in check) restore the
saved state before returning. -/
theorem c6_failed_make_move_leaves_board_unchanged (b : Board) (m : Move)
    (h : (Board.make_move b m).1 = false) : (Board.make_move b m).2 = b := by
  unfold Board.make_move at h ⊢
  split at h
  next hc => rw [if_pos hc]
  next hc =>
    rw [if_neg hc]
    split at h
    next hc2 => rw [if_pos hc2]
    next hc2 => exact Bool.noConfusion h

/-- Witness for C6 at a concrete input: the quiet move from the empty square
e3 in the starting position fails and leaves the board unchanged. -/
theorem c6_witness :
    (Board.make_move startBoard mvFromEmpty).1 = false ∧
    (Board.make_move startBoard mvFromEmpty).2 = startBoard :=
  ⟨by decide, c6_failed_make_move_leaves_board_unchanged startBoard mvFromEmpty (by decide)⟩

/-- C8 (refuted): a placement field whose eighth rank consists of eight
unrecognized characters, and one whose first rank sums to only seven
squares, are both claimed to be rejected; `Board.__init__` accepts both
silently, producing a board with those squares simply empty. -/
theorem c8_malformed_fen_silently_accepted :
    boardFromFen (String.toList "xxxxxxxx/8/8/8/8/8/8/8 w - - 0 1") =
      some (Board.update_position_masks
        { white_pawns := 0, white_knights := 0, white_bishops := 0,
          white_rooks := 0, white_queens := 0, white_king := 0,
          black_pawns := 0, black_knights := 0, black_bishops := 0,
          black_rooks := 0, black_queens := 0, black_king := 0,
          white_to_move := true,
          castling_rights := ⟨false, false, false, false⟩,
          en_passant_target := none, halfmove_clock := 0, fullmove_number := 1,
          white_pieces := 0, black_pieces := 0, all_pieces := 0 }) ∧
    (boardFromFen (String.toList "rnbqkbnr/pppppppp/8/8/8/8/PPPPPPPP/RNBQKBN w KQkq - 0 1")).isSome
      = true := by
  refine ⟨by decide, by decide⟩

/-- The per-square exchange value is never negative: the source returns
`-current_value if current_value < 0 else 0`. -/
theorem evaluate_single_exchange_nonneg (e : Evaluation) (sq : Nat) (w : Bool) :
    0 ≤ e.evaluate_single_exchange sq w := by
  unfold Evaluation.evaluate_single_exchange
  dsimp only
  split
  · exact le_refl 0
  · split
    next hlt => omega
    next hlt => exact le_refl 0

/-- The while-loop of `_evaluate_piece_exchanges` accumulates only
nonnegative contributions when White is the attacking side. -/
theorem exchangeScoreLoop_nonneg (e : Evaluation) :
    ∀ n : Nat, 0 ≤ e.exchangeScoreLoop true n := by
  intro n
  induction n using Nat.strong_induction_on with
  | _ n ih =>
    rw [Evaluation.exchangeScoreLoop]
    split
    · exact le_refl 0
    next hn =>
      have hlt : n &&& (n - 1) < n :=
        Nat.lt_of_le_of_lt Nat.and_le_right (Nat.pred_lt hn)
      have hih := ih _ hlt
      have h1 := evaluate_single_exchange_nonneg e (getLsb n).toNat true
      simp only [if_pos rfl]
      exact add_nonneg h1 hih

/-- The while-loop of `_evaluate_piece_exchanges` accumulates only
nonpositive contributions when Black is the attacking side. -/
theorem exchangeScoreLoop_nonpos (e : Evaluation) :
    ∀ n : Nat, e.exchangeScoreLoop false n ≤ 0 := by
  intro n
  induction n using Nat.strong_induction_on with
  | _ n ih =>
    rw [Evaluation.exchangeScoreLoop]
    split
    · exact le_refl 0
    next hn =>
      have hlt : n &&& (n - 1) < n :=
        Nat.lt_of_le_of_lt Nat.and_le_right (Nat.pred_lt hn)
      have hih := ih _ hlt
      have h2 := evaluate_single_exchange_nonneg e (getLsb n).toNat false
      have : (false : Bool) = true ↔ False := by simp
      simp only [if_neg (by simp : ¬((false : Bool) = true))]
      exact add_nonpos (neg_nonpos.mpr h2) hih

/-- C9 (confirmed): for every evaluation state and attacked square the
static-exchange simulation (attackers and defenders sorted ascending by
exchange value, alternating captures starting with the weakest attacker,
early exit below the 20-centipawn threshold) contributes a nonnegative
value, and `_evaluate_piece_exchanges` adds those values positively for
White as the attacking side and negatively for Black. -/
theorem c9_exchange_contribution_nonneg_and_signed
    (e : Evaluation) (sq : Nat) (w : Bool) :
    0 ≤ e.evaluate_single_exchange sq w ∧
    0 ≤ e.evaluate_piece_exchanges true ∧
    e.evaluate_piece_exchanges false ≤ 0 :=
  ⟨evaluate_single_exchange_nonneg e sq w,
   exchangeScoreLoop_nonneg e _,
   exchangeScoreLoop_nonpos e _⟩

/-- C10 (confirmed): every move parsed from UCI carries the `QUIET` flag
(4 characters) or a plain promotion flag (5 characters) — never a
capture, en-passant or castling flag — so `is_capture` and `is_castling`
are false on every parsed move; consequently applying the parsed
castling-shaped king move e1g1 relocates no rook. -/
theorem c10_from_uci_flag_is_quiet_or_promotion :
    (∀ (uci : List Char) (m : Move), Move.fromUci uci = some m →
      (m.flag = MoveFlag.QUIET ∨ m.flag = MoveFlag.PROMOTION_N ∨
       m.flag = MoveFlag.PROMOTION_B ∨ m.flag = MoveFlag.PROMOTION_R ∨
       m.flag = MoveFlag.PROMOTION_Q) ∧
      m.is_capture = false ∧ m.is_castling = false) ∧
    Move.fromUci (String.toList "e1g1") = some mvE1G1 ∧
    (Board.make_move bC10 mvE1G1).1 = true ∧
    (Board.make_move bC10 mvE1G1).2.white_rooks = bC10.white_rooks := by
  refine ⟨?_, by decide, by decide, by decide⟩
  intro uci m h
  rcases uci with _ | ⟨a, _ | ⟨b, _ | ⟨c, _ | ⟨d, _ | ⟨p, _ | ⟨x, rest⟩⟩⟩⟩⟩⟩
  · exact Option.noConfusion h
  · exact Option.noConfusion h
  · exact Option.noConfusion h
  · exact Option.noConfusion h
  · -- four characters: the flag is QUIET
    have h' : (if 'a' ≤ a ∧ a ≤ 'h' ∧ '1' ≤ b ∧ b ≤ '8' ∧
                  'a' ≤ c ∧ c ≤ 'h' ∧ '1' ≤ d ∧ d ≤ '8' then
                match Square.fromAlg [a, b], Square.fromAlg [c, d] with
                | some fs, some ts => some (Move.mk fs ts MoveFlag.QUIET)
                | _, _ => none
              else none) = some m := h
    split at h'
    · rcases hfa : Square.fromAlg [a, b] with _ | fs <;> rw [hfa] at h'
      · exact Option.noConfusion h'
      · rcases hfb : Square.fromAlg [c, d] with _ | ts <;> rw [hfb] at h'
        · exact Option.noConfusion h'
        · have h2 : some (Move.mk fs ts MoveFlag.QUIET) = some m := h'
          cases h2
          exact ⟨Or.inl rfl, rfl, rfl⟩
    · exact Option.noConfusion h'
  · -- five characters: the flag comes from the promotion table
    have h' : (if 'a' ≤ a ∧ a ≤ 'h' ∧ '1' ≤ b ∧ b ≤ '8' ∧
                  'a' ≤ c ∧ c ≤ 'h' ∧ '1' ≤ d ∧ d ≤ '8' then
                match Square.fromAlg [a, b], Square.fromAlg [c, d] with
                | some fs, some ts =>
                  match promotionFlagOf p.toLower with
                  | some fl => some (Move.mk fs ts fl)
                  | none => none
                | _, _ => none
              else none) = some m := h
    split at h'
    · rcases hfa : Square.fromAlg [a, b] with _ | fs <;> rw [hfa] at h'
      · exact Option.noConfusion h'
      · rcases hfb : Square.fromAlg [c, d] with _ | ts <;> rw [hfb] at h'
        · exact Option.noConfusion h'
        · rcases hpf : promotionFlagOf p.toLower with _ | fl
          · rw [hpf] at h'
            exact Option.noConfusion h'
          · rw [hpf] at h'
            have h2 : some (Move.mk fs ts fl) = some m := h'
            cases h2
            unfold promotionFlagOf at hpf
            split_ifs at hpf <;> cases hpf
            · exact ⟨Or.inr (Or.inl rfl), rfl, rfl⟩
            · exact ⟨Or.inr (Or.inr (Or.inl rfl)), rfl, rfl⟩
            · exact ⟨Or.inr (Or.inr (Or.inr (Or.inl rfl))), rfl, rfl⟩
            · exact ⟨Or.inr (Or.inr (Or.inr (Or.inr rfl))), rfl, rfl⟩
    · exact Option.noConfusion h'
  · exact Option.noConfusion h

/-- Witness for C10: the parsed promotion move `"e7e8q"` satisfies the
hypothesis of the universal part concretely. -/
theorem c10_witness :
    Move.fromUci (String.toList "e7e8q") =
      some ⟨⟨6, 4⟩, ⟨7, 4⟩, MoveFlag.PROMOTION_Q⟩ ∧
    Move.is_capture ⟨⟨6, 4⟩, ⟨7, 4⟩, MoveFlag.PROMOTION_Q⟩ = false ∧
    Move.is_castling ⟨⟨6, 4⟩, ⟨7, 4⟩, MoveFlag.PROMOTION_Q⟩ = false :=
  ⟨by decide,
   (c10_from_uci_flag_is_quiet_or_promotion.1 (String.toList "e7e8q") _ (by decide)).2.1,
   (c10_from_uci_flag_is_quiet_or_promotion.1 (String.toList "e7e8q") _ (by decide)).2.2⟩

/-! ## Infrastructure for the FEN round-trip (C7): decimal printing/parsing -/

/-- Number of decimal digits (used to state the parsing lemma). -/
def numDigits (n : Nat) : Nat :=
  if h : n < 10 then 1
  else
    have : n / 10 < n := Nat.div_lt_self (by omega) (by omega)
    numDigits (n / 10) + 1

theorem parseNatAux_cons (c : Char) (cs : List Char) (a : Nat) :
    parseNatAux (c :: cs) a =
      if c.isDigit then parseNatAux cs (a * 10 + digitVal c) else none := rfl

theorem digitChar_isDigit_val {k : Nat} (hk : k < 10) :
    (Char.ofNat (48 + k)).isDigit = true ∧ digitVal (Char.ofNat (48 + k)) = k := by
  interval_cases k <;> exact ⟨by decide, by decide⟩

theorem parseNatAux_natToStrGo :
    ∀ (fuel n : Nat), n < 10 ^ (fuel + 1) → ∀ (acc : List Char) (a : Nat),
      parseNatAux (natToStrGo (fuel + 1) n acc) a =
        parseNatAux acc (a * 10 ^ numDigits n + n) := by
  intro fuel
  induction fuel with
  | zero =>
    intro n hn acc a
    have h10 : n < 10 := by simpa using hn
    unfold natToStrGo
    rw [if_pos h10, parseNatAux_cons,
        if_pos (digitChar_isDigit_val (Nat.mod_lt n (by omega))).1,
        (digitChar_isDigit_val (Nat.mod_lt n (by omega))).2]
    have h1 : numDigits n = 1 := by unfold numDigits; rw [dif_pos h10]
    rw [h1, Nat.mod_eq_of_lt h10, pow_one]
  | succ fuel ih =>
    intro n hn acc a
    by_cases h10 : n < 10
    · unfold natToStrGo
      rw [if_pos h10, parseNatAux_cons,
          if_pos (digitChar_isDigit_val (Nat.mod_lt n (by omega))).1,
          (digitChar_isDigit_val (Nat.mod_lt n (by omega))).2]
      have h1 : numDigits n = 1 := by unfold numDigits; rw [dif_pos h10]
      rw [h1, Nat.mod_eq_of_lt h10, pow_one]
    · unfold natToStrGo
      rw [if_neg h10]
      have hdiv : n / 10 < 10 ^ (fuel + 1) := by
        rw [Nat.div_lt_iff_lt_mul (by omega)]
        calc n < 10 ^ (fuel + 2) := hn
          _ = 10 ^ (fuel + 1) * 10 := by ring
      rw [ih (n / 10) hdiv, parseNatAux_cons,
          if_pos (digitChar_isDigit_val (Nat.mod_lt n (by omega))).1,
          (digitChar_isDigit_val (Nat.mod_lt n (by omega))).2]
      have hnd : numDigits n = numDigits (n / 10) + 1 := by
        conv_lhs => unfold numDigits
        rw [dif_neg h10]
      rw [hnd]
      congr 1
      have hdm : 10 * (n / 10) + n % 10 = n := Nat.div_add_mod n 10
      calc (a * 10 ^ numDigits (n / 10) + n / 10) * 10 + n % 10
          = a * 10 ^ numDigits (n / 10) * 10 + (10 * (n / 10) + n % 10) := by ring
        _ = a * 10 ^ numDigits (n / 10) * 10 + n := by rw [hdm]
        _ = a * 10 ^ (numDigits (n / 10) + 1) + n := by ring

theorem natToStrGo_ne_nil :
    ∀ (fuel n : Nat) (acc : List Char), acc ≠ [] → natToStrGo fuel n acc ≠ [] := by
  intro fuel
  induction fuel with
  | zero => intro n acc h; exact h
  | succ fuel ih =>
    intro n acc h
    unfold natToStrGo
    split
    · simp
    · exact ih _ _ (by simp)

theorem natToString_ne_nil (n : Nat) : natToString n ≠ [] := by
  unfold natToString natToStrGo
  split
  · simp
  · exact natToStrGo_ne_nil _ _ _ (by simp)

theorem parseNat_natToString (n : Nat) : parseNat (natToString n) = some n := by
  have hlt : n < 10 ^ (n + 1) :=
    Nat.lt_of_lt_of_le (Nat.lt_pow_self (by omega) n)
      (Nat.pow_le_pow_right (by omega) (by omega))
  have h := parseNatAux_natToStrGo n n hlt [] 0
  have h0 : parseNatAux [] (0 * 10 ^ numDigits n + n) = some n := by
    unfold parseNatAux; simp
  have hne := natToString_ne_nil n
  rcases hs : natToString n with _ | ⟨c, cs⟩
  · exact absurd hs hne
  · have hp : parseNat (c :: cs) = parseNatAux (c :: cs) 0 := rfl
    rw [hp, ← hs]
    show parseNatAux (natToStrGo (n + 1) n []) 0 = some n
    rw [h, h0]

theorem natToString_all_digits :
    ∀ (fuel n : Nat) (acc : List Char), (∀ c ∈ acc, c.isDigit = true) →
      ∀ c ∈ natToStrGo fuel n acc, c.isDigit = true := by
  intro fuel
  induction fuel with
  | zero => intro n acc h; exact h
  | succ fuel ih =>
    intro n acc h c hc
    unfold natToStrGo at hc
    split at hc
    · rw [List.mem_cons] at hc
      rcases hc with hc | hc
      · exact hc ▸ (digitChar_isDigit_val (Nat.mod_lt n (by omega))).1
      · exact h c hc
    · refine ih _ _ ?_ c hc
      intro c' hc'
      rw [List.mem_cons] at hc'
      rcases hc' with hc' | hc'
      · exact hc' ▸ (digitChar_isDigit_val (Nat.mod_lt n (by omega))).1
      · exact h c' hc'

theorem parseInt_cons (c : Char) (cs : List Char) :
    parseInt (c :: cs) =
      if c = '-' then (parseNat cs).map (fun k => -(Int.ofNat k))
      else if c = '+' then (parseNat cs).map (fun k => Int.ofNat k)
      else (parseNat (c :: cs)).map (fun k => Int.ofNat k) := rfl

theorem parseInt_intToString (n : Int) : parseInt (intToString n) = some n := by
  unfold intToString
  split
  next hneg =>
    rw [parseInt_cons, if_pos rfl, parseNat_natToString]
    show some (-(((-n).toNat : Int))) = some n
    congr 1
    omega
  next hpos =>
    rcases hs : natToString n.toNat with _ | ⟨c, cs⟩
    · exact absurd hs (natToString_ne_nil _)
    · have hcd : c.isDigit = true := by
        have hmem : c ∈ natToString n.toNat := by rw [hs]; simp
        exact natToString_all_digits (n.toNat + 1) n.toNat [] (by simp) c hmem
      have hc1 : c ≠ '-' := fun hcc => absurd (hcc ▸ hcd) (by decide)
      have hc2 : c ≠ '+' := fun hcc => absurd (hcc ▸ hcd) (by decide)
      rw [parseInt_cons, if_neg hc1, if_neg hc2, ← hs, parseNat_natToString]
      show some ((n.toNat : Int)) = some n
      congr 1
      omega

/-! ## Infrastructure for the FEN round-trip: splitting lemmas -/

theorem splitOnChar_not_mem (c : Char) :
    ∀ (xs : List Char), c ∉ xs → splitOnChar c xs = [xs] := by
  intro xs
  induction xs with
  | nil => intro _; rfl
  | cons x xs ih =>
    intro h
    have hx : x ≠ c := fun hc => h (by simp [hc])
    have hxs : c ∉ xs := fun hc => h (by simp [hc])
    unfold splitOnChar
    rw [if_neg hx, ih hxs]

theorem splitOnChar_append (c : Char) :
    ∀ (xs ys : List Char), c ∉ xs →
      splitOnChar c (xs ++ c :: ys) = xs :: splitOnChar c ys := by
  intro xs
  induction xs with
  | nil =>
    intro ys _
    show splitOnChar c (c :: ys) = [] :: splitOnChar c ys
    conv_lhs => rw [splitOnChar]
    rw [if_pos rfl]
  | cons x xs ih =>
    intro ys h
    have hx : x ≠ c := fun hc => h (by simp [hc])
    have hxs : c ∉ xs := fun hc => h (by simp [hc])
    show splitOnChar c (x :: (xs ++ c :: ys)) = (x :: xs) :: splitOnChar c ys
    conv_lhs => rw [splitOnChar]
    rw [if_neg hx, ih ys hxs]

theorem splitOnChar_ne_nil (c : Char) : ∀ (xs : List Char), splitOnChar c xs ≠ [] := by
  intro xs
  induction xs with
  | nil => simp [splitOnChar]
  | cons x xs ih =>
    unfold splitOnChar
    split
    · simp
    · split
      next h => exact absurd h ih
      next => simp

theorem pySplit_append (xs ys : List Char) (hne : xs ≠ []) (hnb : ' ' ∉ xs) :
    pySplit (xs ++ ' ' :: ys) = xs :: pySplit ys := by
  unfold pySplit
  rw [splitOnChar_append ' ' xs ys hnb]
  rw [List.filter_cons]
  simp [hne]

theorem pySplit_single (xs : List Char) (hne : xs ≠ []) (hnb : ' ' ∉ xs) :
    pySplit xs = [xs] := by
  unfold pySplit
  rw [splitOnChar_not_mem ' ' xs hnb]
  simp [hne]

theorem splitOnChar_intercalate (c : Char) :
    ∀ (l : List (List Char)), l ≠ [] → (∀ x ∈ l, c ∉ x) →
      splitOnChar c (List.intercalate [c] l) = l := by
  intro l
  induction l with
  | nil => intro h; exact absurd rfl h
  | cons x l ih =>
    intro _ hmem
    rcases l with _ | ⟨y, l'⟩
    · show splitOnChar c (List.intercalate [c] [x]) = [x]
      rw [show List.intercalate [c] [x] = x from by simp [List.intercalate]]
      exact splitOnChar_not_mem c x (hmem x (by simp))
    · have hinter : List.intercalate [c] (x :: y :: l') =
          x ++ c :: List.intercalate [c] (y :: l') := by
        simp [List.intercalate, List.intersperse]
      rw [hinter, splitOnChar_append c _ _ (hmem x (by simp))]
      rw [ih (by simp) (fun z hz => hmem z (by simp [hz]))]

/-! ## Infrastructure for the FEN round-trip: well-formedness and piece characters -/

/-- The twelve piece bitboards in the priority order of `get_piece_at` and of
the placement parser's dispatch. -/
def Board.pieceBB (b : Board) : Nat → Nat
  | 0 => b.white_pawns
  | 1 => b.white_knights
  | 2 => b.white_bishops
  | 3 => b.white_rooks
  | 4 => b.white_queens
  | 5 => b.white_king
  | 6 => b.black_pawns
  | 7 => b.black_knights
  | 8 => b.black_bishops
  | 9 => b.black_rooks
  | 10 => b.black_queens
  | _ => b.black_king

/-- The corresponding piece letters. -/
def pieceChar : Nat → Char
  | 0 => 'P'
  | 1 => 'N'
  | 2 => 'B'
  | 3 => 'R'
  | 4 => 'Q'
  | 5 => 'K'
  | 6 => 'p'
  | 7 => 'n'
  | 8 => 'b'
  | 9 => 'r'
  | 10 => 'q'
  | _ => 'k'

/-- The parser's accumulated bitboards, in the same order. -/
def Placement.pieceBB (p : Placement) : Nat → Nat
  | 0 => p.white_pawns
  | 1 => p.white_knights
  | 2 => p.white_bishops
  | 3 => p.white_rooks
  | 4 => p.white_queens
  | 5 => p.white_king
  | 6 => p.black_pawns
  | 7 => p.black_knights
  | 8 => p.black_bishops
  | 9 => p.black_rooks
  | 10 => p.black_queens
  | _ => p.black_king

/-- En-passant-target validity, as a boolean so that `WF` is decidable:
a target, when present, is a square passed over by a double push, on the
board's third or sixth rank (0-indexed rank 2 or 5).  This is the
specification's reachability constraint — the target is non-null only on
the ply immediately following the enabling double push — and in
particular it excludes square a1, whose falsy `IntEnum` value makes
`generate_fen` print `'-'`. -/
def Board.epOk (b : Board) : Bool :=
  match b.en_passant_target with
  | some t => decide ((t.rank = 2 ∨ t.rank = 5) ∧ t.file < 8)
  | none => true

/-- The board invariants of reachable positions that make a FEN
round-trip possible: the twelve bitboards are pairwise disjoint 64-bit
sets, and the en-passant target (when present) is a genuine double-push
square. -/
def Board.WF (b : Board) : Prop :=
  (∀ i, i < 12 → ∀ k, k < 12 → i ≠ k → b.pieceBB i &&& b.pieceBB k = 0) ∧
  (∀ i, i < 12 → b.pieceBB i < 2 ^ 64) ∧
  b.epOk = true

instance (b : Board) : Decidable b.WF := by
  unfold Board.WF
  infer_instance

theorem and_shl_one_ne_zero_iff (bb j : Nat) :
    (bb &&& (1 <<< j) ≠ 0) = (bb.testBit j = true) := by
  apply propext
  rw [Nat.shiftLeft_eq, one_mul, Nat.and_two_pow]
  rcases h : bb.testBit j <;> simp [h]

theorem and_eq_zero_testBit {x y : Nat} (h : x &&& y = 0) (j : Nat)
    (hx : x.testBit j = true) : y.testBit j = false := by
  have h2 := congrArg (fun n => n.testBit j) h
  simp only [Nat.testBit_and, Nat.zero_testBit] at h2
  rcases hy : y.testBit j
  · rfl
  · rw [hx, hy] at h2; exact absurd h2 (by simp)

theorem fromBB_toIdx (j : Nat) : (Square.fromBB j).toIdx = j := by
  show j / 8 * 8 + j % 8 = j
  have := Nat.div_add_mod j 8
  omega

/-- `get_piece_at` as a chain of `testBit` tests. -/
theorem get_piece_at_fromBB (b : Board) (j : Nat) :
    b.get_piece_at (Square.fromBB j) =
      (if b.white_pawns.testBit j then 'P'
       else if b.white_knights.testBit j then 'N'
       else if b.white_bishops.testBit j then 'B'
       else if b.white_rooks.testBit j then 'R'
       else if b.white_queens.testBit j then 'Q'
       else if b.white_king.testBit j then 'K'
       else if b.black_pawns.testBit j then 'p'
       else if b.black_knights.testBit j then 'n'
       else if b.black_bishops.testBit j then 'b'
       else if b.black_rooks.testBit j then 'r'
       else if b.black_queens.testBit j then 'q'
       else if b.black_king.testBit j then 'k'
       else '.') := by
  unfold Board.get_piece_at
  rw [fromBB_toIdx]
  simp only [and_shl_one_ne_zero_iff]

/-- If bit `j` of the `i`-th bitboard is set on a board with pairwise
disjoint bitboards, `get_piece_at` reports that piece's letter. -/
theorem get_piece_at_of_testBit (b : Board)
    (hd : ∀ i, i < 12 → ∀ k, k < 12 → i ≠ k → b.pieceBB i &&& b.pieceBB k = 0)
    (j : Nat) (i : Nat) (hi : i < 12)
    (hbit : (b.pieceBB i).testBit j = true) :
    b.get_piece_at (Square.fromBB j) = pieceChar i := by
  have himp : ∀ i', i' < 12 → ∀ k', k' < 12 → i' ≠ k' →
      (b.pieceBB i').testBit j = true → (b.pieceBB k').testBit j = false :=
    fun i' hi' k' hk' hik hb => and_eq_zero_testBit (hd i' hi' k' hk' hik) j hb
  rw [get_piece_at_fromBB]
  interval_cases i
  · have hb : b.white_pawns.testBit j = true := hbit
    rw [if_pos hb]
    rfl
  · have n0 : b.white_pawns.testBit j = false := himp 1 (by omega) 0 (by omega) (by omega) hbit
    have hb : b.white_knights.testBit j = true := hbit
    rw [if_neg (by simp [n0]), if_pos hb]
    rfl
  · have n0 : b.white_pawns.testBit j = false := himp 2 (by omega) 0 (by omega) (by omega) hbit
    have n1 : b.white_knights.testBit j = false := himp 2 (by omega) 1 (by omega) (by omega) hbit
    have hb : b.white_bishops.testBit j = true := hbit
    rw [if_neg (by simp [n0]), if_neg (by simp [n1]), if_pos hb]
    rfl
  · have n0 : b.white_pawns.testBit j = false := himp 3 (by omega) 0 (by omega) (by omega) hbit
    have n1 : b.white_knights.testBit j = false := himp 3 (by omega) 1 (by omega) (by omega) hbit
    have n2 : b.white_bishops.testBit j = false := himp 3 (by omega) 2 (by omega) (by omega) hbit
    have hb : b.white_rooks.testBit j = true := hbit
    rw [if_neg (by simp [n0]), if_neg (by simp [n1]), if_neg (by simp [n2]), if_pos hb]
    rfl
  · have n0 : b.white_pawns.testBit j = false := himp 4 (by omega) 0 (by omega) (by omega) hbit
    have n1 : b.white_knights.testBit j = false := himp 4 (by omega) 1 (by omega) (by omega) hbit
    have n2 : b.white_bishops.testBit j = false := himp 4 (by omega) 2 (by omega) (by omega) hbit
    have n3 : b.white_rooks.testBit j = false := himp 4 (by omega) 3 (by omega) (by omega) hbit
    have hb : b.white_queens.testBit j = true := hbit
    rw [if_neg (by simp [n0]), if_neg (by simp [n1]), if_neg (by simp [n2]), if_neg (by simp [n3]), if_pos hb]
    rfl
  · have n0 : b.white_pawns.testBit j = false := himp 5 (by omega) 0 (by omega) (by omega) hbit
    have n1 : b.white_knights.testBit j = false := himp 5 (by omega) 1 (by omega) (by omega) hbit
    have n2 : b.white_bishops.testBit j = false := himp 5 (by omega) 2 (by omega) (by omega) hbit
    have n3 : b.white_rooks.testBit j = false := himp 5 (by omega) 3 (by omega) (by omega) hbit
    have n4 : b.white_queens.testBit j = false := himp 5 (by omega) 4 (by omega) (by omega) hbit
    have hb : b.white_king.testBit j = true := hbit
    rw [if_neg (by simp [n0]), if_neg (by simp [n1]), if_neg (by simp [n2]), if_neg (by simp [n3]), if_neg (by simp [n4]), if_pos hb]
    rfl
  · have n0 : b.white_pawns.testBit j = false := himp 6 (by omega) 0 (by omega) (by omega) hbit
    have n1 : b.white_knights.testBit j = false := himp 6 (by omega) 1 (by omega) (by omega) hbit
    have n2 : b.white_bishops.testBit j = false := himp 6 (by omega) 2 (by omega) (by omega) hbit
    have n3 : b.white_rooks.testBit j = false := himp 6 (by omega) 3 (by omega) (by omega) hbit
    have n4 : b.white_queens.testBit j = false := himp 6 (by omega) 4 (by omega) (by omega) hbit
    have n5 : b.white_king.testBit j = false := himp 6 (by omega) 5 (by omega) (by omega) hbit
    have hb : b.black_pawns.testBit j = true := hbit
    rw [if_neg (by simp [n0]), if_neg (by simp [n1]), if_neg (by simp [n2]), if_neg (by simp [n3]), if_neg (by simp [n4]), if_neg (by simp [n5]), if_pos hb]
    rfl
  · have n0 : b.white_pawns.testBit j = false := himp 7 (by omega) 0 (by omega) (by omega) hbit
    have n1 : b.white_knights.testBit j = false := himp 7 (by omega) 1 (by omega) (by omega) hbit
    have n2 : b.white_bishops.testBit j = false := himp 7 (by omega) 2 (by omega) (by omega) hbit
    have n3 : b.white_rooks.testBit j = false := himp 7 (by omega) 3 (by omega) (by omega) hbit
    have n4 : b.white_queens.testBit j = false := himp 7 (by omega) 4 (by omega) (by omega) hbit
    have n5 : b.white_king.testBit j = false := himp 7 (by omega) 5 (by omega) (by omega) hbit
    have n6 : b.black_pawns.testBit j = false := himp 7 (by omega) 6 (by omega) (by omega) hbit
    have hb : b.black_knights.testBit j = true := hbit
    rw [if_neg (by simp [n0]), if_neg (by simp [n1]), if_neg (by simp [n2]), if_neg (by simp [n3]), if_neg (by simp [n4]), if_neg (by simp [n5]), if_neg (by simp [n6]), if_pos hb]
    rfl
  · have n0 : b.white_pawns.testBit j = false := himp 8 (by omega) 0 (by omega) (by omega) hbit
    have n1 : b.white_knights.testBit j = false := himp 8 (by omega) 1 (by omega) (by omega) hbit
    have n2 : b.white_bishops.testBit j = false := himp 8 (by omega) 2 (by omega) (by omega) hbit
    have n3 : b.white_rooks.testBit j = false := himp 8 (by omega) 3 (by omega) (by omega) hbit
    have n4 : b.white_queens.testBit j = false := himp 8 (by omega) 4 (by omega) (by omega) hbit
    have n5 : b.white_king.testBit j = false := himp 8 (by omega) 5 (by omega) (by omega) hbit
    have n6 : b.black_pawns.testBit j = false := himp 8 (by omega) 6 (by omega) (by omega) hbit
    have n7 : b.black_knights.testBit j = false := himp 8 (by omega) 7 (by omega) (by omega) hbit
    have hb : b.black_bishops.testBit j = true := hbit
    rw [if_neg (by simp [n0]), if_neg (by simp [n1]), if_neg (by simp [n2]), if_neg (by simp [n3]), if_neg (by simp [n4]), if_neg (by simp [n5]), if_neg (by simp [n6]), if_neg (by simp [n7]), if_pos hb]
    rfl
  · have n0 : b.white_pawns.testBit j = false := himp 9 (by omega) 0 (by omega) (by omega) hbit
    have n1 : b.white_knights.testBit j = false := himp 9 (by omega) 1 (by omega) (by omega) hbit
    have n2 : b.white_bishops.testBit j = false := himp 9 (by omega) 2 (by omega) (by omega) hbit
    have n3 : b.white_rooks.testBit j = false := himp 9 (by omega) 3 (by omega) (by omega) hbit
    have n4 : b.white_queens.testBit j = false := himp 9 (by omega) 4 (by omega) (by omega) hbit
    have n5 : b.white_king.testBit j = false := himp 9 (by omega) 5 (by omega) (by omega) hbit
    have n6 : b.black_pawns.testBit j = false := himp 9 (by omega) 6 (by omega) (by omega) hbit
    have n7 : b.black_knights.testBit j = false := himp 9 (by omega) 7 (by omega) (by omega) hbit
    have n8 : b.black_bishops.testBit j = false := himp 9 (by omega) 8 (by omega) (by omega) hbit
    have hb : b.black_rooks.testBit j = true := hbit
    rw [if_neg (by simp [n0]), if_neg (by simp [n1]), if_neg (by simp [n2]), if_neg (by simp [n3]), if_neg (by simp [n4]), if_neg (by simp [n5]), if_neg (by simp [n6]), if_neg (by simp [n7]), if_neg (by simp [n8]), if_pos hb]
    rfl
  · have n0 : b.white_pawns.testBit j = false := himp 10 (by omega) 0 (by omega) (by omega) hbit
    have n1 : b.white_knights.testBit j = false := himp 10 (by omega) 1 (by omega) (by omega) hbit
    have n2 : b.white_bishops.testBit j = false := himp 10 (by omega) 2 (by omega) (by omega) hbit
    have n3 : b.white_rooks.testBit j = false := himp 10 (by omega) 3 (by omega) (by omega) hbit
    have n4 : b.white_queens.testBit j = false := himp 10 (by omega) 4 (by omega) (by omega) hbit
    have n5 : b.white_king.testBit j = false := himp 10 (by omega) 5 (by omega) (by omega) hbit
    have n6 : b.black_pawns.testBit j = false := himp 10 (by omega) 6 (by omega) (by omega) hbit
    have n7 : b.black_knights.testBit j = false := himp 10 (by omega) 7 (by omega) (by omega) hbit
    have n8 : b.black_bishops.testBit j = false := himp 10 (by omega) 8 (by omega) (by omega) hbit
    have n9 : b.black_rooks.testBit j = false := himp 10 (by omega) 9 (by omega) (by omega) hbit
    have hb : b.black_queens.testBit j = true := hbit
    rw [if_neg (by simp [n0]), if_neg (by simp [n1]), if_neg (by simp [n2]), if_neg (by simp [n3]), if_neg (by simp [n4]), if_neg (by simp [n5]), if_neg (by simp [n6]), if_neg (by simp [n7]), if_neg (by simp [n8]), if_neg (by simp [n9]), if_pos hb]
    rfl
  · have n0 : b.white_pawns.testBit j = false := himp 11 (by omega) 0 (by omega) (by omega) hbit
    have n1 : b.white_knights.testBit j = false := himp 11 (by omega) 1 (by omega) (by omega) hbit
    have n2 : b.white_bishops.testBit j = false := himp 11 (by omega) 2 (by omega) (by omega) hbit
    have n3 : b.white_rooks.testBit j = false := himp 11 (by omega) 3 (by omega) (by omega) hbit
    have n4 : b.white_queens.testBit j = false := himp 11 (by omega) 4 (by omega) (by omega) hbit
    have n5 : b.white_king.testBit j = false := himp 11 (by omega) 5 (by omega) (by omega) hbit
    have n6 : b.black_pawns.testBit j = false := himp 11 (by omega) 6 (by omega) (by omega) hbit
    have n7 : b.black_knights.testBit j = false := himp 11 (by omega) 7 (by omega) (by omega) hbit
    have n8 : b.black_bishops.testBit j = false := himp 11 (by omega) 8 (by omega) (by omega) hbit
    have n9 : b.black_rooks.testBit j = false := himp 11 (by omega) 9 (by omega) (by omega) hbit
    have n10 : b.black_queens.testBit j = false := himp 11 (by omega) 10 (by omega) (by omega) hbit
    have hb : b.black_king.testBit j = true := hbit
    rw [if_neg (by simp [n0]), if_neg (by simp [n1]), if_neg (by simp [n2]), if_neg (by simp [n3]), if_neg (by simp [n4]), if_neg (by simp [n5]), if_neg (by simp [n6]), if_neg (by simp [n7]), if_neg (by simp [n8]), if_neg (by simp [n9]), if_neg (by simp [n10]), if_pos hb]
    rfl

/-- If no bitboard holds bit `j`, the square is empty. -/
theorem get_piece_at_of_no_bits (b : Board) (j : Nat)
    (h : ∀ k, k < 12 → (b.pieceBB k).testBit j = false) :
    b.get_piece_at (Square.fromBB j) = '.' := by
  rw [get_piece_at_fromBB]
  rw [if_neg (by simp [show b.white_pawns.testBit j = false from h 0 (by omega)]), if_neg (by simp [show b.white_knights.testBit j = false from h 1 (by omega)]), if_neg (by simp [show b.white_bishops.testBit j = false from h 2 (by omega)]), if_neg (by simp [show b.white_rooks.testBit j = false from h 3 (by omega)]), if_neg (by simp [show b.white_queens.testBit j = false from h 4 (by omega)]), if_neg (by simp [show b.white_king.testBit j = false from h 5 (by omega)]), if_neg (by simp [show b.black_pawns.testBit j = false from h 6 (by omega)]), if_neg (by simp [show b.black_knights.testBit j = false from h 7 (by omega)]), if_neg (by simp [show b.black_bishops.testBit j = false from h 8 (by omega)]), if_neg (by simp [show b.black_rooks.testBit j = false from h 9 (by omega)]), if_neg (by simp [show b.black_queens.testBit j = false from h 10 (by omega)]), if_neg (by simp [show b.black_king.testBit j = false from h 11 (by omega)])]

theorem pieceChar_injective :
    ∀ k, k < 12 → ∀ i, i < 12 → k ≠ i → pieceChar k ≠ pieceChar i := by decide

theorem pieceChar_ne_dot : ∀ i, i < 12 → pieceChar i ≠ '.' := by decide

set_option maxHeartbeats 1000000 in
/-- The piece letter at a square, for well-formed boards: `get_piece_at`
returns `pieceChar i` exactly when bit `j` of the `i`-th bitboard is set. -/
theorem get_piece_at_eq_pieceChar_iff (b : Board)
    (hd : ∀ i, i < 12 → ∀ k, k < 12 → i ≠ k → b.pieceBB i &&& b.pieceBB k = 0)
    (j : Nat) (i : Nat) (hi : i < 12) :
    (b.get_piece_at (Square.fromBB j) = pieceChar i) ↔
      ((b.pieceBB i).testBit j = true) := by
  constructor
  · intro h
    by_cases hbit : (b.pieceBB i).testBit j = true
    · exact hbit
    · exfalso
      by_cases hex : ∃ k, k < 12 ∧ (b.pieceBB k).testBit j = true
      · obtain ⟨k, hk, hbk⟩ := hex
        have hki : k ≠ i := fun he => hbit (he ▸ hbk)
        have hck := get_piece_at_of_testBit b hd j k hk hbk
        rw [h] at hck
        exact pieceChar_injective k hk i hi hki hck.symm
      · push_neg at hex
        have hdot : b.get_piece_at (Square.fromBB j) = '.' :=
          get_piece_at_of_no_bits b j (fun k hk => by simpa using hex k hk)
        rw [h] at hdot
        exact pieceChar_ne_dot i hi hdot
  · exact get_piece_at_of_testBit b hd j i hi

/-! ## Infrastructure for the FEN round-trip: rank strings -/

/-- The list of characters `get_piece_at` can produce. -/
theorem get_piece_at_mem (b : Board) (sq : Square) :
    b.get_piece_at sq ∈
      ['P', 'N', 'B', 'R', 'Q', 'K', 'p', 'n', 'b', 'r', 'q', 'k', '.'] := by
  unfold Board.get_piece_at
  by_cases h0 : b.white_pawns &&& 1 <<< sq.toIdx ≠ 0
  · rw [if_pos h0]; decide
  · rw [if_neg h0]
    by_cases h1 : b.white_knights &&& 1 <<< sq.toIdx ≠ 0
    · rw [if_pos h1]; decide
    · rw [if_neg h1]
      by_cases h2 : b.white_bishops &&& 1 <<< sq.toIdx ≠ 0
      · rw [if_pos h2]; decide
      · rw [if_neg h2]
        by_cases h3 : b.white_rooks &&& 1 <<< sq.toIdx ≠ 0
        · rw [if_pos h3]; decide
        · rw [if_neg h3]
          by_cases h4 : b.white_queens &&& 1 <<< sq.toIdx ≠ 0
          · rw [if_pos h4]; decide
          · rw [if_neg h4]
            by_cases h5 : b.white_king &&& 1 <<< sq.toIdx ≠ 0
            · rw [if_pos h5]; decide
            · rw [if_neg h5]
              by_cases h6 : b.black_pawns &&& 1 <<< sq.toIdx ≠ 0
              · rw [if_pos h6]; decide
              · rw [if_neg h6]
                by_cases h7 : b.black_knights &&& 1 <<< sq.toIdx ≠ 0
                · rw [if_pos h7]; decide
                · rw [if_neg h7]
                  by_cases h8 : b.black_bishops &&& 1 <<< sq.toIdx ≠ 0
                  · rw [if_pos h8]; decide
                  · rw [if_neg h8]
                    by_cases h9 : b.black_rooks &&& 1 <<< sq.toIdx ≠ 0
                    · rw [if_pos h9]; decide
                    · rw [if_neg h9]
                      by_cases h10 : b.black_queens &&& 1 <<< sq.toIdx ≠ 0
                      · rw [if_pos h10]; decide
                      · rw [if_neg h10]
                        by_cases h11 : b.black_king &&& 1 <<< sq.toIdx ≠ 0
                        · rw [if_pos h11]; decide
                        · rw [if_neg h11]
                          decide

/-- The suffix of the generated rank string that remains once the files
before `f` have been folded and a run of `cnt` empty squares is pending. -/
def fenRankTail (b : Board) (r f k cnt : Nat) : List Char :=
  let pr := (List.range' f k).foldl (fenRankStep b r) (cnt, [])
  pr.2 ++ (if pr.1 > 0 then natToString pr.1 else [])

/-- The parser-side meaning of the remaining files: fold the piece
characters of files `f, …, f+k-1` into the placement accumulator. -/
def rowApply (b : Board) (r f k : Nat) (p : Placement) : Placement :=
  (List.range' f k).foldl
    (fun q fi => applyPieceChar (b.get_piece_at ⟨r, fi⟩) (1 <<< (r * 8 + fi)) q) p

theorem fenRankStr_eq_tail (b : Board) (r : Nat) :
    fenRankStr b r = fenRankTail b r 0 8 0 := by
  unfold fenRankStr fenRankTail
  rw [List.range_eq_range']

theorem fenRankFold_acc (b : Board) (r : Nat) :
    ∀ (l : List Nat) (cnt : Nat) (s : List Char),
      l.foldl (fenRankStep b r) (cnt, s) =
        ((l.foldl (fenRankStep b r) (cnt, [])).1,
         s ++ (l.foldl (fenRankStep b r) (cnt, [])).2) := by
  intro l
  induction l with
  | nil => intro cnt s; simp
  | cons f l ih =>
    intro cnt s
    by_cases hp : b.get_piece_at ⟨r, f⟩ = '.'
    · have hstep : ∀ s', fenRankStep b r (cnt, s') f = (cnt + 1, s') := by
        intro s'; unfold fenRankStep; rw [if_pos hp]
      rw [List.foldl_cons, List.foldl_cons, hstep, hstep]
      exact ih (cnt + 1) s
    · have hstep : ∀ s', fenRankStep b r (cnt, s') f =
          (0, (s' ++ (if cnt > 0 then natToString cnt else [])) ++
              [b.get_piece_at ⟨r, f⟩]) := by
        intro s'; unfold fenRankStep; rw [if_neg hp]
      rw [List.foldl_cons, List.foldl_cons, hstep, hstep]
      rw [ih 0 ((s ++ (if cnt > 0 then natToString cnt else [])) ++ [b.get_piece_at ⟨r, f⟩]),
          ih 0 (([] ++ (if cnt > 0 then natToString cnt else [])) ++ [b.get_piece_at ⟨r, f⟩])]
      simp

theorem fenRankTail_succ (b : Board) (r f k cnt : Nat) :
    fenRankTail b r f (k + 1) cnt =
      if b.get_piece_at ⟨r, f⟩ = '.' then fenRankTail b r (f + 1) k (cnt + 1)
      else (if cnt > 0 then natToString cnt else []) ++
           b.get_piece_at ⟨r, f⟩ :: fenRankTail b r (f + 1) k 0 := by
  by_cases hp : b.get_piece_at ⟨r, f⟩ = '.'
  · rw [if_pos hp]
    unfold fenRankTail
    rw [List.range'_succ, List.foldl_cons]
    have hstep : fenRankStep b r (cnt, []) f = (cnt + 1, []) := by
      unfold fenRankStep; rw [if_pos hp]
    rw [hstep]
  · rw [if_neg hp]
    unfold fenRankTail
    rw [List.range'_succ, List.foldl_cons]
    have hstep : fenRankStep b r (cnt, []) f =
        (0, ([] ++ (if cnt > 0 then natToString cnt else [])) ++
            [b.get_piece_at ⟨r, f⟩]) := by
      unfold fenRankStep; rw [if_neg hp]
    rw [hstep]
    conv_lhs => rw [fenRankFold_acc]
    simp

theorem fenRankTail_ne_nil (b : Board) (r : Nat) :
    ∀ k f cnt, 0 < k + cnt → fenRankTail b r f k cnt ≠ [] := by
  intro k
  induction k with
  | zero =>
    intro f cnt h
    unfold fenRankTail
    simp only [List.range', List.foldl_nil]
    rw [if_pos (by omega : (0 : Nat) < cnt)]
    simpa using natToString_ne_nil cnt
  | succ k ih =>
    intro f cnt _
    rw [fenRankTail_succ]
    split
    · exact ih (f + 1) (cnt + 1) (by omega)
    · simp

theorem fenRankTail_chars (b : Board) (r : Nat) :
    ∀ k f cnt c, c ∈ fenRankTail b r f k cnt →
      c.isDigit = true ∨ c ∈ ['P', 'N', 'B', 'R', 'Q', 'K', 'p', 'n', 'b', 'r', 'q', 'k'] := by
  intro k
  induction k with
  | zero =>
    intro f cnt c hc
    unfold fenRankTail at hc
    simp only [List.range', List.foldl_nil, List.nil_append] at hc
    split at hc
    · exact Or.inl (natToString_all_digits _ _ [] (by simp) c hc)
    · simp at hc
  | succ k ih =>
    intro f cnt c hc
    rw [fenRankTail_succ] at hc
    split at hc
    · exact ih (f + 1) (cnt + 1) c hc
    next hp =>
      rw [List.mem_append, List.mem_cons] at hc
      rcases hc with hc | hc | hc
      · split at hc
        · exact Or.inl (natToString_all_digits _ _ [] (by simp) c hc)
        · simp at hc
      · right
        subst hc
        have hm := get_piece_at_mem b ⟨r, f⟩
        simp only [List.mem_cons, List.not_mem_nil, or_false] at hm ⊢
        rcases hm with h | h | h | h | h | h | h | h | h | h | h | h | h <;>
          first
            | exact absurd h hp
            | simp [h]
      · exact ih (f + 1) 0 c hc

/-! ## Infrastructure for the FEN round-trip: parsing a generated rank -/

theorem natToString_single_digit :
    ∀ n, n < 10 → 1 ≤ n → natToString n = [Char.ofNat (48 + n)] := by decide

theorem applyPieceChar_dot (m : Nat) (p : Placement) :
    applyPieceChar '.' m p = p := by
  unfold applyPieceChar
  simp

theorem parseRankChars_nil (ri f : Nat) (p : Placement) :
    parseRankChars ri [] f p = some p := rfl

theorem parseRankChars_cons_digit (ri : Nat) (c : Char) (cs : List Char)
    (f : Nat) (p : Placement) (hc : c.isDigit = true) :
    parseRankChars ri (c :: cs) f p = parseRankChars ri cs (f + digitVal c) p := by
  conv_lhs => rw [parseRankChars]
  rw [if_pos hc]

theorem parseRankChars_cons_piece (ri : Nat) (c : Char) (cs : List Char)
    (f : Nat) (p : Placement) (hc : c.isDigit = false) (sq : Square)
    (hsq : Square.fromCoords ((7 : Int) - ri) (f : Int) = some sq) :
    parseRankChars ri (c :: cs) f p =
      parseRankChars ri cs (f + 1) (applyPieceChar c (1 <<< sq.toIdx) p) := by
  conv_lhs => rw [parseRankChars]
  rw [if_neg (by simp [hc]), hsq]

theorem fromCoords_valid (ri f : Nat) (hri : ri ≤ 7) (hf : f ≤ 7) :
    Square.fromCoords ((7 : Int) - ri) (f : Int) = some ⟨7 - ri, f⟩ := by
  unfold Square.fromCoords
  rw [if_pos (by omega)]
  congr 1
  refine congrArg₂ Square.mk ?_ ?_ <;> omega

/-- A piece letter is never a decimal digit. -/
theorem piece_not_digit (c : Char)
    (hc : c ∈ ['P', 'N', 'B', 'R', 'Q', 'K', 'p', 'n', 'b', 'r', 'q', 'k']) :
    c.isDigit = false := by
  fin_cases hc <;> decide

/-- Parsing the generated tail of a rank: the remaining files are folded
into the accumulator square by square. -/
theorem parse_fenRankTail (b : Board) (ri : Nat) (hri : ri ≤ 7) :
    ∀ k f cnt (p : Placement), f + k = 8 → cnt ≤ f →
      parseRankChars ri (fenRankTail b (7 - ri) f k cnt) (f - cnt) p =
        some (rowApply b (7 - ri) f k p) := by
  intro k
  induction k with
  | zero =>
    intro f cnt p hf hcnt
    have ht : fenRankTail b (7 - ri) f 0 cnt =
        (if cnt > 0 then natToString cnt else []) := by
      unfold fenRankTail
      simp [List.range']
    have hrow : rowApply b (7 - ri) f 0 p = p := by
      unfold rowApply
      simp [List.range']
    rw [ht, hrow]
    rcases Nat.eq_zero_or_pos cnt with hc0 | hcpos
    · subst hc0
      rw [if_neg (by omega)]
      exact parseRankChars_nil ri f p
    · rw [if_pos hcpos, natToString_single_digit cnt (by omega) hcpos,
          parseRankChars_cons_digit ri _ [] _ p
            (digitChar_isDigit_val (by omega : cnt < 10)).1,
          (digitChar_isDigit_val (by omega : cnt < 10)).2]
      exact parseRankChars_nil ri _ p
  | succ k ih =>
    intro f cnt p hf hcnt
    have hf7 : f ≤ 7 := by omega
    rw [fenRankTail_succ]
    by_cases hp : b.get_piece_at ⟨7 - ri, f⟩ = '.'
    · rw [if_pos hp]
      have h1 := ih (f + 1) (cnt + 1) p (by omega) (by omega)
      rw [show f + 1 - (cnt + 1) = f - cnt from by omega] at h1
      rw [h1]
      congr 1
      unfold rowApply
      rw [List.range'_succ]
      simp only [List.foldl_cons]
      rw [hp, applyPieceChar_dot]
    · rw [if_neg hp]
      have hgp12 : b.get_piece_at ⟨7 - ri, f⟩ ∈
          ['P', 'N', 'B', 'R', 'Q', 'K', 'p', 'n', 'b', 'r', 'q', 'k'] := by
        have hm := get_piece_at_mem b ⟨7 - ri, f⟩
        simp only [List.mem_cons, List.not_mem_nil, or_false] at hm ⊢
        rcases hm with h | h | h | h | h | h | h | h | h | h | h | h | h <;>
          first
            | exact absurd h hp
            | simp [h]
      have hgpd : (b.get_piece_at ⟨7 - ri, f⟩).isDigit = false := piece_not_digit _ hgp12
      have hfc := fromCoords_valid ri f hri hf7
      have hidx : (Square.mk (7 - ri) f).toIdx = (7 - ri) * 8 + f := rfl
      rcases Nat.eq_zero_or_pos cnt with hc0 | hcpos
      · subst hc0
        rw [if_neg (by omega), List.nil_append, Nat.sub_zero,
            parseRankChars_cons_piece ri _ _ _ p hgpd _ hfc]
        have h1 := ih (f + 1) 0
          (applyPieceChar (b.get_piece_at ⟨7 - ri, f⟩)
            (1 <<< ((7 - ri) * 8 + f)) p) (by omega) (by omega)
        rw [Nat.sub_zero] at h1
        rw [hidx]
        exact h1.trans rfl
      · rw [if_pos hcpos]
        rw [natToString_single_digit cnt (by omega) hcpos]
        rw [show [Char.ofNat (48 + cnt)] ++
              b.get_piece_at ⟨7 - ri, f⟩ :: fenRankTail b (7 - ri) (f + 1) k 0 =
            Char.ofNat (48 + cnt) ::
              (b.get_piece_at ⟨7 - ri, f⟩ :: fenRankTail b (7 - ri) (f + 1) k 0) from rfl]
        rw [parseRankChars_cons_digit ri _ _ _ p
              (digitChar_isDigit_val (by omega : cnt < 10)).1,
            (digitChar_isDigit_val (by omega : cnt < 10)).2,
            show f - cnt + cnt = f from by omega,
            parseRankChars_cons_piece ri _ _ _ p hgpd _ hfc]
        have h1 := ih (f + 1) 0
          (applyPieceChar (b.get_piece_at ⟨7 - ri, f⟩)
            (1 <<< ((7 - ri) * 8 + f)) p) (by omega) (by omega)
        rw [show f + 1 - 0 = f + 1 from rfl] at h1
        rw [hidx]
        exact h1.trans rfl

/-! ## Infrastructure for the FEN round-trip: reassembling the bitboards -/

/-- Effect of one placement-dispatch step on the `i`-th accumulated
bitboard: the mask is ORed in exactly when the character is that piece's
letter. -/
theorem applyPieceChar_sel (c : Char) (m : Nat) (q : Placement)
    (i : Nat) (hi : i < 12) :
    (applyPieceChar c m q).pieceBB i =
      if c = pieceChar i then q.pieceBB i ||| m else q.pieceBB i := by
  unfold applyPieceChar
  interval_cases i
  · by_cases h0 : c = 'P'
    · rw [if_pos h0, if_pos (by rw [h0]; rfl)]
      rfl
    by_cases h1 : c = 'N'
    · rw [if_neg h0, if_pos h1, if_neg (by rw [h1]; decide)]
      rfl
    by_cases h2 : c = 'B'
    · rw [if_neg h0, if_neg h1, if_pos h2, if_neg (by rw [h2]; decide)]
      rfl
    by_cases h3 : c = 'R'
    · rw [if_neg h0, if_neg h1, if_neg h2, if_pos h3, if_neg (by rw [h3]; decide)]
      rfl
    by_cases h4 : c = 'Q'
    · rw [if_neg h0, if_neg h1, if_neg h2, if_neg h3, if_pos h4, if_neg (by rw [h4]; decide)]
      rfl
    by_cases h5 : c = 'K'
    · rw [if_neg h0, if_neg h1, if_neg h2, if_neg h3, if_neg h4, if_pos h5, if_neg (by rw [h5]; decide)]
      rfl
    by_cases h6 : c = 'p'
    · rw [if_neg h0, if_neg h1, if_neg h2, if_neg h3, if_neg h4, if_neg h5, if_pos h6, if_neg (by rw [h6]; decide)]
      rfl
    by_cases h7 : c = 'n'
    · rw [if_neg h0, if_neg h1, if_neg h2, if_neg h3, if_neg h4, if_neg h5, if_neg h6, if_pos h7, if_neg (by rw [h7]; decide)]
      rfl
    by_cases h8 : c = 'b'
    · rw [if_neg h0, if_neg h1, if_neg h2, if_neg h3, if_neg h4, if_neg h5, if_neg h6, if_neg h7, if_pos h8, if_neg (by rw [h8]; decide)]
      rfl
    by_cases h9 : c = 'r'
    · rw [if_neg h0, if_neg h1, if_neg h2, if_neg h3, if_neg h4, if_neg h5, if_neg h6, if_neg h7, if_neg h8, if_pos h9, if_neg (by rw [h9]; decide)]
      rfl
    by_cases h10 : c = 'q'
    · rw [if_neg h0, if_neg h1, if_neg h2, if_neg h3, if_neg h4, if_neg h5, if_neg h6, if_neg h7, if_neg h8, if_neg h9, if_pos h10, if_neg (by rw [h10]; decide)]
      rfl
    by_cases h11 : c = 'k'
    · rw [if_neg h0, if_neg h1, if_neg h2, if_neg h3, if_neg h4, if_neg h5, if_neg h6, if_neg h7, if_neg h8, if_neg h9, if_neg h10, if_pos h11, if_neg (by rw [h11]; decide)]
      rfl
    rw [if_neg h0, if_neg h1, if_neg h2, if_neg h3, if_neg h4, if_neg h5, if_neg h6, if_neg h7, if_neg h8, if_neg h9, if_neg h10, if_neg h11, if_neg (show ¬ c = pieceChar 0 from h0)]
  · by_cases h0 : c = 'P'
    · rw [if_pos h0, if_neg (by rw [h0]; decide)]
      rfl
    by_cases h1 : c = 'N'
    · rw [if_neg h0, if_pos h1, if_pos (by rw [h1]; rfl)]
      rfl
    by_cases h2 : c = 'B'
    · rw [if_neg h0, if_neg h1, if_pos h2, if_neg (by rw [h2]; decide)]
      rfl
    by_cases h3 : c = 'R'
    · rw [if_neg h0, if_neg h1, if_neg h2, if_pos h3, if_neg (by rw [h3]; decide)]
      rfl
    by_cases h4 : c = 'Q'
    · rw [if_neg h0, if_neg h1, if_neg h2, if_neg h3, if_pos h4, if_neg (by rw [h4]; decide)]
      rfl
    by_cases h5 : c = 'K'
    · rw [if_neg h0, if_neg h1, if_neg h2, if_neg h3, if_neg h4, if_pos h5, if_neg (by rw [h5]; decide)]
      rfl
    by_cases h6 : c = 'p'
    · rw [if_neg h0, if_neg h1, if_neg h2, if_neg h3, if_neg h4, if_neg h5, if_pos h6, if_neg (by rw [h6]; decide)]
      rfl
    by_cases h7 : c = 'n'
    · rw [if_neg h0, if_neg h1, if_neg h2, if_neg h3, if_neg h4, if_neg h5, if_neg h6, if_pos h7, if_neg (by rw [h7]; decide)]
      rfl
    by_cases h8 : c = 'b'
    · rw [if_neg h0, if_neg h1, if_neg h2, if_neg h3, if_neg h4, if_neg h5, if_neg h6, if_neg h7, if_pos h8, if_neg (by rw [h8]; decide)]
      rfl
    by_cases h9 : c = 'r'
    · rw [if_neg h0, if_neg h1, if_neg h2, if_neg h3, if_neg h4, if_neg h5, if_neg h6, if_neg h7, if_neg h8, if_pos h9, if_neg (by rw [h9]; decide)]
      rfl
    by_cases h10 : c = 'q'
    · rw [if_neg h0, if_neg h1, if_neg h2, if_neg h3, if_neg h4, if_neg h5, if_neg h6, if_neg h7, if_neg h8, if_neg h9, if_pos h10, if_neg (by rw [h10]; decide)]
      rfl
    by_cases h11 : c = 'k'
    · rw [if_neg h0, if_neg h1, if_neg h2, if_neg h3, if_neg h4, if_neg h5, if_neg h6, if_neg h7, if_neg h8, if_neg h9, if_neg h10, if_pos h11, if_neg (by rw [h11]; decide)]
      rfl
    rw [if_neg h0, if_neg h1, if_neg h2, if_neg h3, if_neg h4, if_neg h5, if_neg h6, if_neg h7, if_neg h8, if_neg h9, if_neg h10, if_neg h11, if_neg (show ¬ c = pieceChar 1 from h1)]
  · by_cases h0 : c = 'P'
    · rw [if_pos h0, if_neg (by rw [h0]; decide)]
      rfl
    by_cases h1 : c = 'N'
    · rw [if_neg h0, if_pos h1, if_neg (by rw [h1]; decide)]
      rfl
    by_cases h2 : c = 'B'
    · rw [if_neg h0, if_neg h1, if_pos h2, if_pos (by rw [h2]; rfl)]
      rfl
    by_cases h3 : c = 'R'
    · rw [if_neg h0, if_neg h1, if_neg h2, if_pos h3, if_neg (by rw [h3]; decide)]
      rfl
    by_cases h4 : c = 'Q'
    · rw [if_neg h0, if_neg h1, if_neg h2, if_neg h3, if_pos h4, if_neg (by rw [h4]; decide)]
      rfl
    by_cases h5 : c = 'K'
    · rw [if_neg h0, if_neg h1, if_neg h2, if_neg h3, if_neg h4, if_pos h5, if_neg (by rw [h5]; decide)]
      rfl
    by_cases h6 : c = 'p'
    · rw [if_neg h0, if_neg h1, if_neg h2, if_neg h3, if_neg h4, if_neg h5, if_pos h6, if_neg (by rw [h6]; decide)]
      rfl
    by_cases h7 : c = 'n'
    · rw [if_neg h0, if_neg h1, if_neg h2, if_neg h3, if_neg h4, if_neg h5, if_neg h6, if_pos h7, if_neg (by rw [h7]; decide)]
      rfl
    by_cases h8 : c = 'b'
    · rw [if_neg h0, if_neg h1, if_neg h2, if_neg h3, if_neg h4, if_neg h5, if_neg h6, if_neg h7, if_pos h8, if_neg (by rw [h8]; decide)]
      rfl
    by_cases h9 : c = 'r'
    · rw [if_neg h0, if_neg h1, if_neg h2, if_neg h3, if_neg h4, if_neg h5, if_neg h6, if_neg h7, if_neg h8, if_pos h9, if_neg (by rw [h9]; decide)]
      rfl
    by_cases h10 : c = 'q'
    · rw [if_neg h0, if_neg h1, if_neg h2, if_neg h3, if_neg h4, if_neg h5, if_neg h6, if_neg h7, if_neg h8, if_neg h9, if_pos h10, if_neg (by rw [h10]; decide)]
      rfl
    by_cases h11 : c = 'k'
    · rw [if_neg h0, if_neg h1, if_neg h2, if_neg h3, if_neg h4, if_neg h5, if_neg h6, if_neg h7, if_neg h8, if_neg h9, if_neg h10, if_pos h11, if_neg (by rw [h11]; decide)]
      rfl
    rw [if_neg h0, if_neg h1, if_neg h2, if_neg h3, if_neg h4, if_neg h5, if_neg h6, if_neg h7, if_neg h8, if_neg h9, if_neg h10, if_neg h11, if_neg (show ¬ c = pieceChar 2 from h2)]
  · by_cases h0 : c = 'P'
    · rw [if_pos h0, if_neg (by rw [h0]; decide)]
      rfl
    by_cases h1 : c = 'N'
    · rw [if_neg h0, if_pos h1, if_neg (by rw [h1]; decide)]
      rfl
    by_cases h2 : c = 'B'
    · rw [if_neg h0, if_neg h1, if_pos h2, if_neg (by rw [h2]; decide)]
      rfl
    by_cases h3 : c = 'R'
    · rw [if_neg h0, if_neg h1, if_neg h2, if_pos h3, if_pos (by rw [h3]; rfl)]
      rfl
    by_cases h4 : c = 'Q'
    · rw [if_neg h0, if_neg h1, if_neg h2, if_neg h3, if_pos h4, if_neg (by rw [h4]; decide)]
      rfl
    by_cases h5 : c = 'K'
    · rw [if_neg h0, if_neg h1, if_neg h2, if_neg h3, if_neg h4, if_pos h5, if_neg (by rw [h5]; decide)]
      rfl
    by_cases h6 : c = 'p'
    · rw [if_neg h0, if_neg h1, if_neg h2, if_neg h3, if_neg h4, if_neg h5, if_pos h6, if_neg (by rw [h6]; decide)]
      rfl
    by_cases h7 : c = 'n'
    · rw [if_neg h0, if_neg h1, if_neg h2, if_neg h3, if_neg h4, if_neg h5, if_neg h6, if_pos h7, if_neg (by rw [h7]; decide)]
      rfl
    by_cases h8 : c = 'b'
    · rw [if_neg h0, if_neg h1, if_neg h2, if_neg h3, if_neg h4, if_neg h5, if_neg h6, if_neg h7, if_pos h8, if_neg (by rw [h8]; decide)]
      rfl
    by_cases h9 : c = 'r'
    · rw [if_neg h0, if_neg h1, if_neg h2, if_neg h3, if_neg h4, if_neg h5, if_neg h6, if_neg h7, if_neg h8, if_pos h9, if_neg (by rw [h9]; decide)]
      rfl
    by_cases h10 : c = 'q'
    · rw [if_neg h0, if_neg h1, if_neg h2, if_neg h3, if_neg h4, if_neg h5, if_neg h6, if_neg h7, if_neg h8, if_neg h9, if_pos h10, if_neg (by rw [h10]; decide)]
      rfl
    by_cases h11 : c = 'k'
    · rw [if_neg h0, if_neg h1, if_neg h2, if_neg h3, if_neg h4, if_neg h5, if_neg h6, if_neg h7, if_neg h8, if_neg h9, if_neg h10, if_pos h11, if_neg (by rw [h11]; decide)]
      rfl
    rw [if_neg h0, if_neg h1, if_neg h2, if_neg h3, if_neg h4, if_neg h5, if_neg h6, if_neg h7, if_neg h8, if_neg h9, if_neg h10, if_neg h11, if_neg (show ¬ c = pieceChar 3 from h3)]
  · by_cases h0 : c = 'P'
    · rw [if_pos h0, if_neg (by rw [h0]; decide)]
      rfl
    by_cases h1 : c = 'N'
    · rw [if_neg h0, if_pos h1, if_neg (by rw [h1]; decide)]
      rfl
    by_cases h2 : c = 'B'
    · rw [if_neg h0, if_neg h1, if_pos h2, if_neg (by rw [h2]; decide)]
      rfl
    by_cases h3 : c = 'R'
    · rw [if_neg h0, if_neg h1, if_neg h2, if_pos h3, if_neg (by rw [h3]; decide)]
      rfl
    by_cases h4 : c = 'Q'
    · rw [if_neg h0, if_neg h1, if_neg h2, if_neg h3, if_pos h4, if_pos (by rw [h4]; rfl)]
      rfl
    by_cases h5 : c = 'K'
    · rw [if_neg h0, if_neg h1, if_neg h2, if_neg h3, if_neg h4, if_pos h5, if_neg (by rw [h5]; decide)]
      rfl
    by_cases h6 : c = 'p'
    · rw [if_neg h0, if_neg h1, if_neg h2, if_neg h3, if_neg h4, if_neg h5, if_pos h6, if_neg (by rw [h6]; decide)]
      rfl
    by_cases h7 : c = 'n'
    · rw [if_neg h0, if_neg h1, if_neg h2, if_neg h3, if_neg h4, if_neg h5, if_neg h6, if_pos h7, if_neg (by rw [h7]; decide)]
      rfl
    by_cases h8 : c = 'b'
    · rw [if_neg h0, if_neg h1, if_neg h2, if_neg h3, if_neg h4, if_neg h5, if_neg h6, if_neg h7, if_pos h8, if_neg (by rw [h8]; decide)]
      rfl
    by_cases h9 : c = 'r'
    · rw [if_neg h0, if_neg h1, if_neg h2, if_neg h3, if_neg h4, if_neg h5, if_neg h6, if_neg h7, if_neg h8, if_pos h9, if_neg (by rw [h9]; decide)]
      rfl
    by_cases h10 : c = 'q'
    · rw [if_neg h0, if_neg h1, if_neg h2, if_neg h3, if_neg h4, if_neg h5, if_neg h6, if_neg h7, if_neg h8, if_neg h9, if_pos h10, if_neg (by rw [h10]; decide)]
      rfl
    by_cases h11 : c = 'k'
    · rw [if_neg h0, if_neg h1, if_neg h2, if_neg h3, if_neg h4, if_neg h5, if_neg h6, if_neg h7, if_neg h8, if_neg h9, if_neg h10, if_pos h11, if_neg (by rw [h11]; decide)]
      rfl
    rw [if_neg h0, if_neg h1, if_neg h2, if_neg h3, if_neg h4, if_neg h5, if_neg h6, if_neg h7, if_neg h8, if_neg h9, if_neg h10, if_neg h11, if_neg (show ¬ c = pieceChar 4 from h4)]
  · by_cases h0 : c = 'P'
    · rw [if_pos h0, if_neg (by rw [h0]; decide)]
      rfl
    by_cases h1 : c = 'N'
    · rw [if_neg h0, if_pos h1, if_neg (by rw [h1]; decide)]
      rfl
    by_cases h2 : c = 'B'
    · rw [if_neg h0, if_neg h1, if_pos h2, if_neg (by rw [h2]; decide)]
      rfl
    by_cases h3 : c = 'R'
    · rw [if_neg h0, if_neg h1, if_neg h2, if_pos h3, if_neg (by rw [h3]; decide)]
      rfl
    by_cases h4 : c = 'Q'
    · rw [if_neg h0, if_neg h1, if_neg h2, if_neg h3, if_pos h4, if_neg (by rw [h4]; decide)]
      rfl
    by_cases h5 : c = 'K'
    · rw [if_neg h0, if_neg h1, if_neg h2, if_neg h3, if_neg h4, if_pos h5, if_pos (by rw [h5]; rfl)]
      rfl
    by_cases h6 : c = 'p'
    · rw [if_neg h0, if_neg h1, if_neg h2, if_neg h3, if_neg h4, if_neg h5, if_pos h6, if_neg (by rw [h6]; decide)]
      rfl
    by_cases h7 : c = 'n'
    · rw [if_neg h0, if_neg h1, if_neg h2, if_neg h3, if_neg h4, if_neg h5, if_neg h6, if_pos h7, if_neg (by rw [h7]; decide)]
      rfl
    by_cases h8 : c = 'b'
    · rw [if_neg h0, if_neg h1, if_neg h2, if_neg h3, if_neg h4, if_neg h5, if_neg h6, if_neg h7, if_pos h8, if_neg (by rw [h8]; decide)]
      rfl
    by_cases h9 : c = 'r'
    · rw [if_neg h0, if_neg h1, if_neg h2, if_neg h3, if_neg h4, if_neg h5, if_neg h6, if_neg h7, if_neg h8, if_pos h9, if_neg (by rw [h9]; decide)]
      rfl
    by_cases h10 : c = 'q'
    · rw [if_neg h0, if_neg h1, if_neg h2, if_neg h3, if_neg h4, if_neg h5, if_neg h6, if_neg h7, if_neg h8, if_neg h9, if_pos h10, if_neg (by rw [h10]; decide)]
      rfl
    by_cases h11 : c = 'k'
    · rw [if_neg h0, if_neg h1, if_neg h2, if_neg h3, if_neg h4, if_neg h5, if_neg h6, if_neg h7, if_neg h8, if_neg h9, if_neg h10, if_pos h11, if_neg (by rw [h11]; decide)]
      rfl
    rw [if_neg h0, if_neg h1, if_neg h2, if_neg h3, if_neg h4, if_neg h5, if_neg h6, if_neg h7, if_neg h8, if_neg h9, if_neg h10, if_neg h11, if_neg (show ¬ c = pieceChar 5 from h5)]
  · by_cases h0 : c = 'P'
    · rw [if_pos h0, if_neg (by rw [h0]; decide)]
      rfl
    by_cases h1 : c = 'N'
    · rw [if_neg h0, if_pos h1, if_neg (by rw [h1]; decide)]
      rfl
    by_cases h2 : c = 'B'
    · rw [if_neg h0, if_neg h1, if_pos h2, if_neg (by rw [h2]; decide)]
      rfl
    by_cases h3 : c = 'R'
    · rw [if_neg h0, if_neg h1, if_neg h2, if_pos h3, if_neg (by rw [h3]; decide)]
      rfl
    by_cases h4 : c = 'Q'
    · rw [if_neg h0, if_neg h1, if_neg h2, if_neg h3, if_pos h4, if_neg (by rw [h4]; decide)]
      rfl
    by_cases h5 : c = 'K'
    · rw [if_neg h0, if_neg h1, if_neg h2, if_neg h3, if_neg h4, if_pos h5, if_neg (by rw [h5]; decide)]
      rfl
    by_cases h6 : c = 'p'
    · rw [if_neg h0, if_neg h1, if_neg h2, if_neg h3, if_neg h4, if_neg h5, if_pos h6, if_pos (by rw [h6]; rfl)]
      rfl
    by_cases h7 : c = 'n'
    · rw [if_neg h0, if_neg h1, if_neg h2, if_neg h3, if_neg h4, if_neg h5, if_neg h6, if_pos h7, if_neg (by rw [h7]; decide)]
      rfl
    by_cases h8 : c = 'b'
    · rw [if_neg h0, if_neg h1, if_neg h2, if_neg h3, if_neg h4, if_neg h5, if_neg h6, if_neg h7, if_pos h8, if_neg (by rw [h8]; decide)]
      rfl
    by_cases h9 : c = 'r'
    · rw [if_neg h0, if_neg h1, if_neg h2, if_neg h3, if_neg h4, if_neg h5, if_neg h6, if_neg h7, if_neg h8, if_pos h9, if_neg (by rw [h9]; decide)]
      rfl
    by_cases h10 : c = 'q'
    · rw [if_neg h0, if_neg h1, if_neg h2, if_neg h3, if_neg h4, if_neg h5, if_neg h6, if_neg h7, if_neg h8, if_neg h9, if_pos h10, if_neg (by rw [h10]; decide)]
      rfl
    by_cases h11 : c = 'k'
    · rw [if_neg h0, if_neg h1, if_neg h2, if_neg h3, if_neg h4, if_neg h5, if_neg h6, if_neg h7, if_neg h8, if_neg h9, if_neg h10, if_pos h11, if_neg (by rw [h11]; decide)]
      rfl
    rw [if_neg h0, if_neg h1, if_neg h2, if_neg h3, if_neg h4, if_neg h5, if_neg h6, if_neg h7, if_neg h8, if_neg h9, if_neg h10, if_neg h11, if_neg (show ¬ c = pieceChar 6 from h6)]
  · by_cases h0 : c = 'P'
    · rw [if_pos h0, if_neg (by rw [h0]; decide)]
      rfl
    by_cases h1 : c = 'N'
    · rw [if_neg h0, if_pos h1, if_neg (by rw [h1]; decide)]
      rfl
    by_cases h2 : c = 'B'
    · rw [if_neg h0, if_neg h1, if_pos h2, if_neg (by rw [h2]; decide)]
      rfl
    by_cases h3 : c = 'R'
    · rw [if_neg h0, if_neg h1, if_neg h2, if_pos h3, if_neg (by rw [h3]; decide)]
      rfl
    by_cases h4 : c = 'Q'
    · rw [if_neg h0, if_neg h1, if_neg h2, if_neg h3, if_pos h4, if_neg (by rw [h4]; decide)]
      rfl
    by_cases h5 : c = 'K'
    · rw [if_neg h0, if_neg h1, if_neg h2, if_neg h3, if_neg h4, if_pos h5, if_neg (by rw [h5]; decide)]
      rfl
    by_cases h6 : c = 'p'
    · rw [if_neg h0, if_neg h1, if_neg h2, if_neg h3, if_neg h4, if_neg h5, if_pos h6, if_neg (by rw [h6]; decide)]
      rfl
    by_cases h7 : c = 'n'
    · rw [if_neg h0, if_neg h1, if_neg h2, if_neg h3, if_neg h4, if_neg h5, if_neg h6, if_pos h7, if_pos (by rw [h7]; rfl)]
      rfl
    by_cases h8 : c = 'b'
    · rw [if_neg h0, if_neg h1, if_neg h2, if_neg h3, if_neg h4, if_neg h5, if_neg h6, if_neg h7, if_pos h8, if_neg (by rw [h8]; decide)]
      rfl
    by_cases h9 : c = 'r'
    · rw [if_neg h0, if_neg h1, if_neg h2, if_neg h3, if_neg h4, if_neg h5, if_neg h6, if_neg h7, if_neg h8, if_pos h9, if_neg (by rw [h9]; decide)]
      rfl
    by_cases h10 : c = 'q'
    · rw [if_neg h0, if_neg h1, if_neg h2, if_neg h3, if_neg h4, if_neg h5, if_neg h6, if_neg h7, if_neg h8, if_neg h9, if_pos h10, if_neg (by rw [h10]; decide)]
      rfl
    by_cases h11 : c = 'k'
    · rw [if_neg h0, if_neg h1, if_neg h2, if_neg h3, if_neg h4, if_neg h5, if_neg h6, if_neg h7, if_neg h8, if_neg h9, if_neg h10, if_pos h11, if_neg (by rw [h11]; decide)]
      rfl
    rw [if_neg h0, if_neg h1, if_neg h2, if_neg h3, if_neg h4, if_neg h5, if_neg h6, if_neg h7, if_neg h8, if_neg h9, if_neg h10, if_neg h11, if_neg (show ¬ c = pieceChar 7 from h7)]
  · by_cases h0 : c = 'P'
    · rw [if_pos h0, if_neg (by rw [h0]; decide)]
      rfl
    by_cases h1 : c = 'N'
    · rw [if_neg h0, if_pos h1, if_neg (by rw [h1]; decide)]
      rfl
    by_cases h2 : c = 'B'
    · rw [if_neg h0, if_neg h1, if_pos h2, if_neg (by rw [h2]; decide)]
      rfl
    by_cases h3 : c = 'R'
    · rw [if_neg h0, if_neg h1, if_neg h2, if_pos h3, if_neg (by rw [h3]; decide)]
      rfl
    by_cases h4 : c = 'Q'
    · rw [if_neg h0, if_neg h1, if_neg h2, if_neg h3, if_pos h4, if_neg (by rw [h4]; decide)]
      rfl
    by_cases h5 : c = 'K'
    · rw [if_neg h0, if_neg h1, if_neg h2, if_neg h3, if_neg h4, if_pos h5, if_neg (by rw [h5]; decide)]
      rfl
    by_cases h6 : c = 'p'
    · rw [if_neg h0, if_neg h1, if_neg h2, if_neg h3, if_neg h4, if_neg h5, if_pos h6, if_neg (by rw [h6]; decide)]
      rfl
    by_cases h7 : c = 'n'
    · rw [if_neg h0, if_neg h1, if_neg h2, if_neg h3, if_neg h4, if_neg h5, if_neg h6, if_pos h7, if_neg (by rw [h7]; decide)]
      rfl
    by_cases h8 : c = 'b'
    · rw [if_neg h0, if_neg h1, if_neg h2, if_neg h3, if_neg h4, if_neg h5, if_neg h6, if_neg h7, if_pos h8, if_pos (by rw [h8]; rfl)]
      rfl
    by_cases h9 : c = 'r'
    · rw [if_neg h0, if_neg h1, if_neg h2, if_neg h3, if_neg h4, if_neg h5, if_neg h6, if_neg h7, if_neg h8, if_pos h9, if_neg (by rw [h9]; decide)]
      rfl
    by_cases h10 : c = 'q'
    · rw [if_neg h0, if_neg h1, if_neg h2, if_neg h3, if_neg h4, if_neg h5, if_neg h6, if_neg h7, if_neg h8, if_neg h9, if_pos h10, if_neg (by rw [h10]; decide)]
      rfl
    by_cases h11 : c = 'k'
    · rw [if_neg h0, if_neg h1, if_neg h2, if_neg h3, if_neg h4, if_neg h5, if_neg h6, if_neg h7, if_neg h8, if_neg h9, if_neg h10, if_pos h11, if_neg (by rw [h11]; decide)]
      rfl
    rw [if_neg h0, if_neg h1, if_neg h2, if_neg h3, if_neg h4, if_neg h5, if_neg h6, if_neg h7, if_neg h8, if_neg h9, if_neg h10, if_neg h11, if_neg (show ¬ c = pieceChar 8 from h8)]
  · by_cases h0 : c = 'P'
    · rw [if_pos h0, if_neg (by rw [h0]; decide)]
      rfl
    by_cases h1 : c = 'N'
    · rw [if_neg h0, if_pos h1, if_neg (by rw [h1]; decide)]
      rfl
    by_cases h2 : c = 'B'
    · rw [if_neg h0, if_neg h1, if_pos h2, if_neg (by rw [h2]; decide)]
      rfl
    by_cases h3 : c = 'R'
    · rw [if_neg h0, if_neg h1, if_neg h2, if_pos h3, if_neg (by rw [h3]; decide)]
      rfl
    by_cases h4 : c = 'Q'
    · rw [if_neg h0, if_neg h1, if_neg h2, if_neg h3, if_pos h4, if_neg (by rw [h4]; decide)]
      rfl
    by_cases h5 : c = 'K'
    · rw [if_neg h0, if_neg h1, if_neg h2, if_neg h3, if_neg h4, if_pos h5, if_neg (by rw [h5]; decide)]
      rfl
    by_cases h6 : c = 'p'
    · rw [if_neg h0, if_neg h1, if_neg h2, if_neg h3, if_neg h4, if_neg h5, if_pos h6, if_neg (by rw [h6]; decide)]
      rfl
    by_cases h7 : c = 'n'
    · rw [if_neg h0, if_neg h1, if_neg h2, if_neg h3, if_neg h4, if_neg h5, if_neg h6, if_pos h7, if_neg (by rw [h7]; decide)]
      rfl
    by_cases h8 : c = 'b'
    · rw [if_neg h0, if_neg h1, if_neg h2, if_neg h3, if_neg h4, if_neg h5, if_neg h6, if_neg h7, if_pos h8, if_neg (by rw [h8]; decide)]
      rfl
    by_cases h9 : c = 'r'
    · rw [if_neg h0, if_neg h1, if_neg h2, if_neg h3, if_neg h4, if_neg h5, if_neg h6, if_neg h7, if_neg h8, if_pos h9, if_pos (by rw [h9]; rfl)]
      rfl
    by_cases h10 : c = 'q'
    · rw [if_neg h0, if_neg h1, if_neg h2, if_neg h3, if_neg h4, if_neg h5, if_neg h6, if_neg h7, if_neg h8, if_neg h9, if_pos h10, if_neg (by rw [h10]; decide)]
      rfl
    by_cases h11 : c = 'k'
    · rw [if_neg h0, if_neg h1, if_neg h2, if_neg h3, if_neg h4, if_neg h5, if_neg h6, if_neg h7, if_neg h8, if_neg h9, if_neg h10, if_pos h11, if_neg (by rw [h11]; decide)]
      rfl
    rw [if_neg h0, if_neg h1, if_neg h2, if_neg h3, if_neg h4, if_neg h5, if_neg h6, if_neg h7, if_neg h8, if_neg h9, if_neg h10, if_neg h11, if_neg (show ¬ c = pieceChar 9 from h9)]
  · by_cases h0 : c = 'P'
    · rw [if_pos h0, if_neg (by rw [h0]; decide)]
      rfl
    by_cases h1 : c = 'N'
    · rw [if_neg h0, if_pos h1, if_neg (by rw [h1]; decide)]
      rfl
    by_cases h2 : c = 'B'
    · rw [if_neg h0, if_neg h1, if_pos h2, if_neg (by rw [h2]; decide)]
      rfl
    by_cases h3 : c = 'R'
    · rw [if_neg h0, if_neg h1, if_neg h2, if_pos h3, if_neg (by rw [h3]; decide)]
      rfl
    by_cases h4 : c = 'Q'
    · rw [if_neg h0, if_neg h1, if_neg h2, if_neg h3, if_pos h4, if_neg (by rw [h4]; decide)]
      rfl
    by_cases h5 : c = 'K'
    · rw [if_neg h0, if_neg h1, if_neg h2, if_neg h3, if_neg h4, if_pos h5, if_neg (by rw [h5]; decide)]
      rfl
    by_cases h6 : c = 'p'
    · rw [if_neg h0, if_neg h1, if_neg h2, if_neg h3, if_neg h4, if_neg h5, if_pos h6, if_neg (by rw [h6]; decide)]
      rfl
    by_cases h7 : c = 'n'
    · rw [if_neg h0, if_neg h1, if_neg h2, if_neg h3, if_neg h4, if_neg h5, if_neg h6, if_pos h7, if_neg (by rw [h7]; decide)]
      rfl
    by_cases h8 : c = 'b'
    · rw [if_neg h0, if_neg h1, if_neg h2, if_neg h3, if_neg h4, if_neg h5, if_neg h6, if_neg h7, if_pos h8, if_neg (by rw [h8]; decide)]
      rfl
    by_cases h9 : c = 'r'
    · rw [if_neg h0, if_neg h1, if_neg h2, if_neg h3, if_neg h4, if_neg h5, if_neg h6, if_neg h7, if_neg h8, if_pos h9, if_neg (by rw [h9]; decide)]
      rfl
    by_cases h10 : c = 'q'
    · rw [if_neg h0, if_neg h1, if_neg h2, if_neg h3, if_neg h4, if_neg h5, if_neg h6, if_neg h7, if_neg h8, if_neg h9, if_pos h10, if_pos (by rw [h10]; rfl)]
      rfl
    by_cases h11 : c = 'k'
    · rw [if_neg h0, if_neg h1, if_neg h2, if_neg h3, if_neg h4, if_neg h5, if_neg h6, if_neg h7, if_neg h8, if_neg h9, if_neg h10, if_pos h11, if_neg (by rw [h11]; decide)]
      rfl
    rw [if_neg h0, if_neg h1, if_neg h2, if_neg h3, if_neg h4, if_neg h5, if_neg h6, if_neg h7, if_neg h8, if_neg h9, if_neg h10, if_neg h11, if_neg (show ¬ c = pieceChar 10 from h10)]
  · by_cases h0 : c = 'P'
    · rw [if_pos h0, if_neg (by rw [h0]; decide)]
      rfl
    by_cases h1 : c = 'N'
    · rw [if_neg h0, if_pos h1, if_neg (by rw [h1]; decide)]
      rfl
    by_cases h2 : c = 'B'
    · rw [if_neg h0, if_neg h1, if_pos h2, if_neg (by rw [h2]; decide)]
      rfl
    by_cases h3 : c = 'R'
    · rw [if_neg h0, if_neg h1, if_neg h2, if_pos h3, if_neg (by rw [h3]; decide)]
      rfl
    by_cases h4 : c = 'Q'
    · rw [if_neg h0, if_neg h1, if_neg h2, if_neg h3, if_pos h4, if_neg (by rw [h4]; decide)]
      rfl
    by_cases h5 : c = 'K'
    · rw [if_neg h0, if_neg h1, if_neg h2, if_neg h3, if_neg h4, if_pos h5, if_neg (by rw [h5]; decide)]
      rfl
    by_cases h6 : c = 'p'
    · rw [if_neg h0, if_neg h1, if_neg h2, if_neg h3, if_neg h4, if_neg h5, if_pos h6, if_neg (by rw [h6]; decide)]
      rfl
    by_cases h7 : c = 'n'
    · rw [if_neg h0, if_neg h1, if_neg h2, if_neg h3, if_neg h4, if_neg h5, if_neg h6, if_pos h7, if_neg (by rw [h7]; decide)]
      rfl
    by_cases h8 : c = 'b'
    · rw [if_neg h0, if_neg h1, if_neg h2, if_neg h3, if_neg h4, if_neg h5, if_neg h6, if_neg h7, if_pos h8, if_neg (by rw [h8]; decide)]
      rfl
    by_cases h9 : c = 'r'
    · rw [if_neg h0, if_neg h1, if_neg h2, if_neg h3, if_neg h4, if_neg h5, if_neg h6, if_neg h7, if_neg h8, if_pos h9, if_neg (by rw [h9]; decide)]
      rfl
    by_cases h10 : c = 'q'
    · rw [if_neg h0, if_neg h1, if_neg h2, if_neg h3, if_neg h4, if_neg h5, if_neg h6, if_neg h7, if_neg h8, if_neg h9, if_pos h10, if_neg (by rw [h10]; decide)]
      rfl
    by_cases h11 : c = 'k'
    · rw [if_neg h0, if_neg h1, if_neg h2, if_neg h3, if_neg h4, if_neg h5, if_neg h6, if_neg h7, if_neg h8, if_neg h9, if_neg h10, if_pos h11, if_pos (by rw [h11]; rfl)]
      rfl
    rw [if_neg h0, if_neg h1, if_neg h2, if_neg h3, if_neg h4, if_neg h5, if_neg h6, if_neg h7, if_neg h8, if_neg h9, if_neg h10, if_neg h11, if_neg (show ¬ c = pieceChar 11 from h11)]

theorem fromBB_mk (r fi : Nat) (h : fi < 8) : Square.fromBB (r * 8 + fi) = ⟨r, fi⟩ := by
  unfold Square.fromBB
  have h1 : (r * 8 + fi) / 8 = r := by omega
  have h2 : (r * 8 + fi) % 8 = fi := by omega
  rw [h1, h2]

/-- The set of board bits written by one generated rank segment. -/
def rowMask (r f k : Nat) : Nat :=
  (List.range' f k).foldl (fun a fi => a ||| 1 <<< (r * 8 + fi)) 0

theorem orFold_acc (r : Nat) (l : List Nat) (a : Nat) :
    l.foldl (fun a fi => a ||| 1 <<< (r * 8 + fi)) a
      = a ||| l.foldl (fun a fi => a ||| 1 <<< (r * 8 + fi)) 0 := by
  induction l generalizing a with
  | nil => simp
  | cons x xs ih =>
    rw [List.foldl_cons, List.foldl_cons, ih (a ||| 1 <<< (r * 8 + x)),
      ih (0 ||| 1 <<< (r * 8 + x))]
    simp [Nat.lor_assoc]

theorem rowMask_cons (r f k : Nat) :
    rowMask r f (k + 1) = (1 <<< (r * 8 + f)) ||| rowMask r (f + 1) k := by
  unfold rowMask
  rw [List.range'_succ, List.foldl_cons, orFold_acc]
  simp

/-- Running the accumulation over one rank segment ORs in exactly the
board's bits of the `i`-th piece that fall inside the segment. -/
theorem rowApply_sel (b : Board)
    (hd : ∀ i, i < 12 → ∀ k, k < 12 → i ≠ k → b.pieceBB i &&& b.pieceBB k = 0)
    (r : Nat) (i : Nat) (hi : i < 12) :
    ∀ k f p, f + k ≤ 8 →
      (rowApply b r f k p).pieceBB i
        = p.pieceBB i ||| (b.pieceBB i &&& rowMask r f k) := by
  intro k
  induction k with
  | zero =>
    intro f p _
    show p.pieceBB i = p.pieceBB i ||| (b.pieceBB i &&& 0)
    simp
  | succ k ih =>
    intro f p hfk
    have hstep : rowApply b r f (k + 1) p
        = rowApply b r (f + 1) k
            (applyPieceChar (b.get_piece_at ⟨r, f⟩) (1 <<< (r * 8 + f)) p) := by
      unfold rowApply
      rw [List.range'_succ, List.foldl_cons]
    rw [hstep, ih (f + 1) _ (by omega), applyPieceChar_sel _ _ _ i hi, rowMask_cons,
      Nat.and_or_distrib_left]
    by_cases hbit : (b.pieceBB i).testBit (r * 8 + f) = true
    · have hc : b.get_piece_at ⟨r, f⟩ = pieceChar i := by
        have h2 := (get_piece_at_eq_pieceChar_iff b hd (r * 8 + f) i hi).2 hbit
        rwa [fromBB_mk r f (by omega)] at h2
      have hm : b.pieceBB i &&& 1 <<< (r * 8 + f) = 1 <<< (r * 8 + f) := by
        rw [Nat.one_shiftLeft, Nat.and_two_pow, hbit]
        simp
      rw [if_pos hc, hm, Nat.lor_assoc]
    · have hbitf : (b.pieceBB i).testBit (r * 8 + f) = false := by
        rw [Bool.not_eq_true] at hbit
        exact hbit
      have hc : b.get_piece_at ⟨r, f⟩ ≠ pieceChar i := by
        intro hceq
        have h2 := (get_piece_at_eq_pieceChar_iff b hd (r * 8 + f) i hi).1
          (by rwa [fromBB_mk r f (by omega)])
        rw [h2] at hbitf
        exact Bool.noConfusion hbitf
      have hm : b.pieceBB i &&& 1 <<< (r * 8 + f) = 0 := by
        rw [Nat.one_shiftLeft, Nat.and_two_pow, hbitf]
        simp
      rw [if_neg hc, hm]
      simp

theorem parseRanks_cons_some (r : List Char) (rs : List (List Char)) (idx : Nat)
    (p p' : Placement) (h : parseRankChars idx r 0 p = some p') :
    parseRanks (r :: rs) idx p = parseRanks rs (idx + 1) p' := by
  conv_lhs => rw [parseRanks]
  rw [h]

/-- The placement accumulated by parsing the eight generated rank strings. -/
def fullPlacement (b : Board) : Placement :=
  rowApply b 0 0 8 (rowApply b 1 0 8 (rowApply b 2 0 8 (rowApply b 3 0 8
    (rowApply b 4 0 8 (rowApply b 5 0 8 (rowApply b 6 0 8 (rowApply b 7 0 8 {})))))))

/-- Parsing the eight generated rank strings from an empty accumulator
succeeds and yields the composed row accumulation. -/
theorem parseRanks_fen (b : Board) :
    parseRanks ((List.range 8).reverse.map (fenRankStr b)) 0 {}
      = some (fullPlacement b) := by
  have step : ∀ ri : Nat, ri ≤ 7 → ∀ p' : Placement,
      parseRankChars ri (fenRankStr b (7 - ri)) 0 p'
        = some (rowApply b (7 - ri) 0 8 p') := by
    intro ri hri p'
    rw [fenRankStr_eq_tail]
    have h1 := parse_fenRankTail b ri hri 8 0 0 p' (by omega) (by omega)
    rwa [Nat.sub_zero] at h1
  have hlist : (List.range 8).reverse.map (fenRankStr b)
      = [fenRankStr b 7, fenRankStr b 6, fenRankStr b 5, fenRankStr b 4,
         fenRankStr b 3, fenRankStr b 2, fenRankStr b 1, fenRankStr b 0] := by
    rfl
  rw [hlist]
  have s0 : parseRankChars 0 (fenRankStr b 7) 0 ({} : Placement)
      = some (rowApply b 7 0 8 ({} : Placement)) := step 0 (by omega) ({} : Placement)
  rw [parseRanks_cons_some _ _ _ _ _ s0]
  have s1 : parseRankChars 1 (fenRankStr b 6) 0 (rowApply b 7 0 8 ({} : Placement))
      = some (rowApply b 6 0 8 (rowApply b 7 0 8 ({} : Placement))) := step 1 (by omega) (rowApply b 7 0 8 ({} : Placement))
  rw [parseRanks_cons_some _ _ _ _ _ s1]
  have s2 : parseRankChars 2 (fenRankStr b 5) 0 (rowApply b 6 0 8 (rowApply b 7 0 8 ({} : Placement)))
      = some (rowApply b 5 0 8 (rowApply b 6 0 8 (rowApply b 7 0 8 ({} : Placement)))) := step 2 (by omega) (rowApply b 6 0 8 (rowApply b 7 0 8 ({} : Placement)))
  rw [parseRanks_cons_some _ _ _ _ _ s2]
  have s3 : parseRankChars 3 (fenRankStr b 4) 0 (rowApply b 5 0 8 (rowApply b 6 0 8 (rowApply b 7 0 8 ({} : Placement))))
      = some (rowApply b 4 0 8 (rowApply b 5 0 8 (rowApply b 6 0 8 (rowApply b 7 0 8 ({} : Placement))))) := step 3 (by omega) (rowApply b 5 0 8 (rowApply b 6 0 8 (rowApply b 7 0 8 ({} : Placement))))
  rw [parseRanks_cons_some _ _ _ _ _ s3]
  have s4 : parseRankChars 4 (fenRankStr b 3) 0 (rowApply b 4 0 8 (rowApply b 5 0 8 (rowApply b 6 0 8 (rowApply b 7 0 8 ({} : Placement)))))
      = some (rowApply b 3 0 8 (rowApply b 4 0 8 (rowApply b 5 0 8 (rowApply b 6 0 8 (rowApply b 7 0 8 ({} : Placement)))))) := step 4 (by omega) (rowApply b 4 0 8 (rowApply b 5 0 8 (rowApply b 6 0 8 (rowApply b 7 0 8 ({} : Placement)))))
  rw [parseRanks_cons_some _ _ _ _ _ s4]
  have s5 : parseRankChars 5 (fenRankStr b 2) 0 (rowApply b 3 0 8 (rowApply b 4 0 8 (rowApply b 5 0 8 (rowApply b 6 0 8 (rowApply b 7 0 8 ({} : Placement))))))
      = some (rowApply b 2 0 8 (rowApply b 3 0 8 (rowApply b 4 0 8 (rowApply b 5 0 8 (rowApply b 6 0 8 (rowApply b 7 0 8 ({} : Placement))))))) := step 5 (by omega) (rowApply b 3 0 8 (rowApply b 4 0 8 (rowApply b 5 0 8 (rowApply b 6 0 8 (rowApply b 7 0 8 ({} : Placement))))))
  rw [parseRanks_cons_some _ _ _ _ _ s5]
  have s6 : parseRankChars 6 (fenRankStr b 1) 0 (rowApply b 2 0 8 (rowApply b 3 0 8 (rowApply b 4 0 8 (rowApply b 5 0 8 (rowApply b 6 0 8 (rowApply b 7 0 8 ({} : Placement)))))))
      = some (rowApply b 1 0 8 (rowApply b 2 0 8 (rowApply b 3 0 8 (rowApply b 4 0 8 (rowApply b 5 0 8 (rowApply b 6 0 8 (rowApply b 7 0 8 ({} : Placement)))))))) := step 6 (by omega) (rowApply b 2 0 8 (rowApply b 3 0 8 (rowApply b 4 0 8 (rowApply b 5 0 8 (rowApply b 6 0 8 (rowApply b 7 0 8 ({} : Placement)))))))
  rw [parseRanks_cons_some _ _ _ _ _ s6]
  have s7 : parseRankChars 7 (fenRankStr b 0) 0 (rowApply b 1 0 8 (rowApply b 2 0 8 (rowApply b 3 0 8 (rowApply b 4 0 8 (rowApply b 5 0 8 (rowApply b 6 0 8 (rowApply b 7 0 8 ({} : Placement))))))))
      = some (rowApply b 0 0 8 (rowApply b 1 0 8 (rowApply b 2 0 8 (rowApply b 3 0 8 (rowApply b 4 0 8 (rowApply b 5 0 8 (rowApply b 6 0 8 (rowApply b 7 0 8 ({} : Placement))))))))) := step 7 (by omega) (rowApply b 1 0 8 (rowApply b 2 0 8 (rowApply b 3 0 8 (rowApply b 4 0 8 (rowApply b 5 0 8 (rowApply b 6 0 8 (rowApply b 7 0 8 ({} : Placement))))))))
  rw [parseRanks_cons_some _ _ _ _ _ s7]
  rfl

theorem emptyPlacement_pieceBB (i : Nat) (hi : i < 12) :
    (({} : Placement)).pieceBB i = 0 := by
  interval_cases i <;> rfl

/-- The reassembled placement reproduces every bitboard of a well-formed
board. -/
theorem fullPlacement_sel (b : Board) (hWF : b.WF) (i : Nat) (hi : i < 12) :
    (fullPlacement b).pieceBB i = b.pieceBB i := by
  obtain ⟨hd, hb, -⟩ := hWF
  unfold fullPlacement
  rw [rowApply_sel b hd 0 i hi 8 0 _ (by omega),
    rowApply_sel b hd 1 i hi 8 0 _ (by omega),
    rowApply_sel b hd 2 i hi 8 0 _ (by omega),
    rowApply_sel b hd 3 i hi 8 0 _ (by omega),
    rowApply_sel b hd 4 i hi 8 0 _ (by omega),
    rowApply_sel b hd 5 i hi 8 0 _ (by omega),
    rowApply_sel b hd 6 i hi 8 0 _ (by omega),
    rowApply_sel b hd 7 i hi 8 0 _ (by omega)]
  rw [emptyPlacement_pieceBB i hi]
  rw [show rowMask 7 0 8 = 0xFF00000000000000 from by decide,
    show rowMask 6 0 8 = 0xFF000000000000 from by decide,
    show rowMask 5 0 8 = 0xFF0000000000 from by decide,
    show rowMask 4 0 8 = 0xFF00000000 from by decide,
    show rowMask 3 0 8 = 0xFF000000 from by decide,
    show rowMask 2 0 8 = 0xFF0000 from by decide,
    show rowMask 1 0 8 = 0xFF00 from by decide,
    show rowMask 0 0 8 = 0xFF from by decide]
  rw [Nat.zero_or]
  rw [← Nat.and_or_distrib_left, ← Nat.and_or_distrib_left, ← Nat.and_or_distrib_left,
    ← Nat.and_or_distrib_left, ← Nat.and_or_distrib_left, ← Nat.and_or_distrib_left,
    ← Nat.and_or_distrib_left]
  rw [show ((((((((0xFF00000000000000 : Nat) ||| 0xFF000000000000) ||| 0xFF0000000000) |||
      0xFF00000000) ||| 0xFF000000) ||| 0xFF0000) ||| 0xFF00) ||| 0xFF) = 2 ^ 64 - 1 from by decide]
  rw [Nat.and_pow_two_sub_one_eq_mod]
  exact Nat.mod_eq_of_lt (hb i hi)

theorem fenRankStr_chars (b : Board) (r : Nat) (c : Char) (hc : c ∈ fenRankStr b r) :
    c.isDigit = true ∨ c ∈ ['P', 'N', 'B', 'R', 'Q', 'K', 'p', 'n', 'b', 'r', 'q', 'k'] := by
  rw [fenRankStr_eq_tail] at hc
  exact fenRankTail_chars b r 8 0 0 c hc

theorem fenRankStr_ne_nil (b : Board) (r : Nat) : fenRankStr b r ≠ [] := by
  rw [fenRankStr_eq_tail]
  exact fenRankTail_ne_nil b r 8 0 0 (by omega)

theorem blank_notin_fenRankStr (b : Board) (r : Nat) : ' ' ∉ fenRankStr b r := by
  intro h
  rcases fenRankStr_chars b r ' ' h with h1 | h1 <;> simp at h1

theorem slash_notin_fenRankStr (b : Board) (r : Nat) : '/' ∉ fenRankStr b r := by
  intro h
  rcases fenRankStr_chars b r '/' h with h1 | h1 <;> simp at h1

theorem fenPlacement_eq (b : Board) :
    fenPlacement b
      = fenRankStr b 7 ++ '/' :: (fenRankStr b 6 ++ '/' :: (fenRankStr b 5 ++
          '/' :: (fenRankStr b 4 ++ '/' :: (fenRankStr b 3 ++ '/' :: (fenRankStr b 2 ++
            '/' :: (fenRankStr b 1 ++ '/' :: fenRankStr b 0)))))) := by
  unfold fenPlacement
  rw [show (List.range 8).reverse.map (fenRankStr b)
      = [fenRankStr b 7, fenRankStr b 6, fenRankStr b 5, fenRankStr b 4,
         fenRankStr b 3, fenRankStr b 2, fenRankStr b 1, fenRankStr b 0] from rfl]
  simp [List.intercalate]

theorem fenPlacement_ne_nil (b : Board) : fenPlacement b ≠ [] := by
  rw [fenPlacement_eq]
  simp [fenRankStr_ne_nil]

theorem blank_notin_fenPlacement (b : Board) : ' ' ∉ fenPlacement b := by
  have hr : ∀ r, ' ' ∉ fenRankStr b r := blank_notin_fenRankStr b
  rw [fenPlacement_eq]
  simp [hr]

/-- Splitting the generated placement field on `'/'` recovers the eight
rank strings. -/
theorem splitOnChar_fenPlacement (b : Board) :
    splitOnChar '/' (fenPlacement b) = (List.range 8).reverse.map (fenRankStr b) := by
  unfold fenPlacement
  refine splitOnChar_intercalate '/' _ (by simp) ?_
  intro x hx
  simp only [List.mem_map] at hx
  obtain ⟨r, -, hr⟩ := hx
  rw [← hr]
  exact slash_notin_fenRankStr b r

theorem castlingStr_ne_nil (r : CastlingRights) : castlingStr r ≠ [] := by
  rcases r with ⟨K, Q, k, q⟩
  cases K <;> cases Q <;> cases k <;> cases q <;> decide

theorem blank_notin_castlingStr (r : CastlingRights) : ' ' ∉ castlingStr r := by
  rcases r with ⟨K, Q, k, q⟩
  cases K <;> cases Q <;> cases k <;> cases q <;> decide

theorem intToString_ne_nil (n : Int) : intToString n ≠ [] := by
  unfold intToString
  split
  · simp
  · exact natToString_ne_nil _

theorem blank_notin_intToString (n : Int) : ' ' ∉ intToString n := by
  unfold intToString
  intro h
  have hdig : ∀ m : Nat, ' ' ∉ natToString m := by
    intro m hm
    have := natToString_all_digits (m + 1) m [] (by simp) ' ' hm
    simp at this
  split at h
  · rcases List.mem_cons.mp h with h1 | h1
    · exact absurd h1 (by decide)
    · exact hdig _ h1
  · exact hdig _ h

theorem epStr_ne_nil (e : Option Square) : epStr e ≠ [] := by
  rcases e with - | t
  · simp [epStr]
  · show (if t.rank * 16 + t.file ≠ 0 then t.toAlg else ['-']) ≠ []
    split
    · simp [Square.toAlg]
    · simp

theorem blank_notin_epStr (e : Option Square) (hf : ∀ t ∈ e, t.file < 8) :
    ' ' ∉ epStr e := by
  rcases e with - | t
  · decide
  · show ' ' ∉ (if t.rank * 16 + t.file ≠ 0 then t.toAlg else ['-'])
    split
    · intro h
      rcases List.mem_cons.mp h with h1 | h1
      · have hf8 := hf t rfl
        rcases t with ⟨tr, tf⟩
        simp only at hf8 h1
        interval_cases tf <;> exact absurd h1 (by decide)
      · have := natToString_all_digits _ _ [] (by simp) ' ' h1
        simp at this
    · decide

/-- Generating and re-parsing the en-passant field is the identity on
genuine double-push targets (the falsy square a1 is excluded by the rank
constraint, so the truthiness test in `generate_fen` never fires on a
present target). -/
theorem parseEpField_epStr (e : Option Square)
    (hok : ∀ t ∈ e, (t.rank = 2 ∨ t.rank = 5) ∧ t.file < 8) :
    parseEpField (epStr e) = some e := by
  rcases e with - | t
  · rfl
  · obtain ⟨hr, hf⟩ := hok t rfl
    rcases t with ⟨tr, tf⟩
    simp only at hr hf
    rcases hr with hr | hr <;> subst hr <;> interval_cases tf <;> decide

theorem parseCastlingField_castlingStr (r : CastlingRights) :
    parseCastlingField (castlingStr r) = r := by
  rcases r with ⟨K, Q, k, q⟩
  cases K <;> cases Q <;> cases k <;> cases q <;> decide

/-- The generated FEN string splits (Python `str.split()`) into exactly its
six fields. -/
theorem pySplit_generate_fen (b : Board)
    (hf : ∀ t ∈ b.en_passant_target, t.file < 8) :
    pySplit (Board.generate_fen b)
      = [fenPlacement b, [if b.white_to_move then 'w' else 'b'],
         castlingStr b.castling_rights, epStr b.en_passant_target,
         intToString b.halfmove_clock, intToString b.fullmove_number] := by
  unfold Board.generate_fen
  rw [pySplit_append _ _ (fenPlacement_ne_nil b) (blank_notin_fenPlacement b)]
  rw [show ((if b.white_to_move then 'w' else 'b') ::
      ' ' :: (castlingStr b.castling_rights ++
        ' ' :: (epStr b.en_passant_target ++
          ' ' :: (intToString b.halfmove_clock ++
            ' ' :: intToString b.fullmove_number))))
    = [if b.white_to_move then 'w' else 'b'] ++
      ' ' :: (castlingStr b.castling_rights ++
        ' ' :: (epStr b.en_passant_target ++
          ' ' :: (intToString b.halfmove_clock ++
            ' ' :: intToString b.fullmove_number))) from rfl]
  rw [pySplit_append _ _ (by simp) (by cases b.white_to_move <;> decide)]
  rw [pySplit_append _ _ (castlingStr_ne_nil _) (blank_notin_castlingStr _)]
  rw [pySplit_append _ _ (epStr_ne_nil _) (blank_notin_epStr _ hf)]
  rw [pySplit_append _ _ (intToString_ne_nil _) (blank_notin_intToString _)]
  rw [pySplit_single _ (intToString_ne_nil _) (blank_notin_intToString _)]

/-- Evaluation of `boardFromFen` once the six fields and their parses are
known. -/
theorem boardFromFen_eq (fen p0 p1 p2 p3 p4 p5 : List Char)
    (h : pySplit fen = [p0, p1, p2, p3, p4, p5])
    (pl : Placement) (hpl : parseRanks (splitOnChar '/' p0) 0 {} = some pl)
    (ep : Option Square) (hep : parseEpField p3 = some ep)
    (hm fm : Int) (hhm : parseInt p4 = some hm) (hfm : parseInt p5 = some fm) :
    boardFromFen fen = some (Board.update_position_masks
      { white_pawns := pl.white_pawns
        white_knights := pl.white_knights
        white_bishops := pl.white_bishops
        white_rooks := pl.white_rooks
        white_queens := pl.white_queens
        white_king := pl.white_king
        black_pawns := pl.black_pawns
        black_knights := pl.black_knights
        black_bishops := pl.black_bishops
        black_rooks := pl.black_rooks
        black_queens := pl.black_queens
        black_king := pl.black_king
        white_to_move := p1 = ['w']
        castling_rights := parseCastlingField p2
        en_passant_target := ep
        halfmove_clock := hm
        fullmove_number := fm
        white_pieces := 0
        black_pieces := 0
        all_pieces := 0 }) := by
  unfold boardFromFen
  rw [h]
  simp only [hpl, hep, hhm, hfm]

/-- **C7** (FEN round-trip): for every reachable board `b` — pairwise
disjoint 64-bit piece sets, and an en-passant target that, when present,
is a genuine double-push square on rank 3 or 6 — parsing
`b.generate_fen()` succeeds and reproduces all twelve piece bit-sets, the
side-to-move, all four castling rights, the en-passant target, the
halfmove clock and the fullmove number.  The rank constraint on the
target comes from the specification itself (the target is non-null only
immediately after a double push); it matters because `generate_fen`
tests the target's truthiness, and square a1's falsy `IntEnum` value 0
would serialize as `'-'`. -/
theorem c7_fen_roundtrip (b : Board) (h : b.WF) :
    ∃ b2 : Board, boardFromFen (Board.generate_fen b) = some b2 ∧
      b2.white_pawns = b.white_pawns ∧ b2.white_knights = b.white_knights ∧
      b2.white_bishops = b.white_bishops ∧ b2.white_rooks = b.white_rooks ∧
      b2.white_queens = b.white_queens ∧ b2.white_king = b.white_king ∧
      b2.black_pawns = b.black_pawns ∧ b2.black_knights = b.black_knights ∧
      b2.black_bishops = b.black_bishops ∧ b2.black_rooks = b.black_rooks ∧
      b2.black_queens = b.black_queens ∧ b2.black_king = b.black_king ∧
      b2.white_to_move = b.white_to_move ∧
      b2.castling_rights = b.castling_rights ∧
      b2.en_passant_target = b.en_passant_target ∧
      b2.halfmove_clock = b.halfmove_clock ∧
      b2.fullmove_number = b.fullmove_number := by
  obtain ⟨hd, hb, hepok⟩ := h
  have hbounds : ∀ t ∈ b.en_passant_target, (t.rank = 2 ∨ t.rank = 5) ∧ t.file < 8 := by
    intro t ht
    unfold Board.epOk at hepok
    rcases he : b.en_passant_target with - | t'
    · rw [he] at ht
      simp at ht
    · rw [he] at ht hepok
      rw [Option.mem_def] at ht
      injection ht with ht2
      subst ht2
      exact of_decide_eq_true hepok
  have hsplit := pySplit_generate_fen b (fun t ht => (hbounds t ht).2)
  have hpl : parseRanks (splitOnChar '/' (fenPlacement b)) 0 {}
      = some (fullPlacement b) := by
    rw [splitOnChar_fenPlacement]
    exact parseRanks_fen b
  have heq := boardFromFen_eq (Board.generate_fen b) _ _ _ _ _ _ hsplit
    (fullPlacement b) hpl b.en_passant_target (parseEpField_epStr _ hbounds)
    b.halfmove_clock b.fullmove_number (parseInt_intToString _) (parseInt_intToString _)
  have hWF : b.WF := ⟨hd, hb, hepok⟩
  refine ⟨_, heq, ?_, ?_, ?_, ?_, ?_, ?_, ?_, ?_, ?_, ?_, ?_, ?_, ?_, ?_, rfl, rfl, rfl⟩
  · exact fullPlacement_sel b hWF 0 (by omega)
  · exact fullPlacement_sel b hWF 1 (by omega)
  · exact fullPlacement_sel b hWF 2 (by omega)
  · exact fullPlacement_sel b hWF 3 (by omega)
  · exact fullPlacement_sel b hWF 4 (by omega)
  · exact fullPlacement_sel b hWF 5 (by omega)
  · exact fullPlacement_sel b hWF 6 (by omega)
  · exact fullPlacement_sel b hWF 7 (by omega)
  · exact fullPlacement_sel b hWF 8 (by omega)
  · exact fullPlacement_sel b hWF 9 (by omega)
  · exact fullPlacement_sel b hWF 10 (by omega)
  · exact fullPlacement_sel b hWF 11 (by omega)
  · cases hw : b.white_to_move <;> rfl
  · exact parseCastlingField_castlingStr b.castling_rights

/-- The round-trip theorem applied to the concrete starting position. -/
theorem c7_witness :
    startBoard.WF ∧
    (∃ b2 : Board, boardFromFen (Board.generate_fen startBoard) = some b2 ∧
      b2.white_pawns = startBoard.white_pawns ∧
      b2.white_knights = startBoard.white_knights ∧
      b2.white_bishops = startBoard.white_bishops ∧
      b2.white_rooks = startBoard.white_rooks ∧
      b2.white_queens = startBoard.white_queens ∧
      b2.white_king = startBoard.white_king ∧
      b2.black_pawns = startBoard.black_pawns ∧
      b2.black_knights = startBoard.black_knights ∧
      b2.black_bishops = startBoard.black_bishops ∧
      b2.black_rooks = startBoard.black_rooks ∧
      b2.black_queens = startBoard.black_queens ∧
      b2.black_king = startBoard.black_king ∧
      b2.white_to_move = startBoard.white_to_move ∧
      b2.castling_rights = startBoard.castling_rights ∧
      b2.en_passant_target = startBoard.en_passant_target ∧
      b2.halfmove_clock = startBoard.halfmove_clock ∧
      b2.fullmove_number = startBoard.fullmove_number) :=
  ⟨by decide, c7_fen_roundtrip startBoard (by decide)⟩
